import Mathlib

/-!
# Verification of the spresence-compression flash ICER pipeline

Shallow embedding, in Lean 4, of the parts of the `spresence-compression`
repository that the specification's claims are about:

* `src/src/camera_yuv.cpp` — streaming JPEG output callback and the
  RGB→YUV splitter (`jpeg_output_func`, `rgb_to_yuv`);
* `src/src/flash_wavelet.cpp` — the out-of-core wavelet engine
  (`streamingWaveletTransform`): row-pass offset arithmetic, the
  per-stage frame effect, and its temporary-file lifecycle;
* `src/src/flash_partition.cpp` — the tile-streaming partition coder
  (`icer_compress_partition_uint16_flash`): error propagation;
* `src/src/flash_icer_compression.cpp` — the pipeline driver
  (`compressYuvWithIcerFlash`): packet-list construction, LL-mean pass,
  canonical segment emission, output-size verification, and the
  temporary-file lifecycle of every failure path.

Machine integers are modelled as `Nat`/`Int` with explicit reduction
`% 2^w` where the C code can wrap (`size_t` is 32 bits wide on the
Spresense CXD5602 target; `int16_t` arithmetic wraps at `2^16`); C signed
division (which truncates towards zero) is `Int.tdiv`.  File contents are
byte- or sample-addressed total functions together with an explicit size;
the storage API of `filesystem_interface.h` is modelled by explicit state
passing.  Fallible calls (open/malloc/read/write and the ICER library
primitives, which are external to this repository) are driven by an
environment record listing, per call site, whether the call succeeds.
-/

/-! ## Machine-integer helpers -/

/-- Interpret a stored 16-bit pattern (`0 ≤ x < 2^16`) as a signed
`int16_t` value, as C does when casting `uint16_t*` to `int16_t*`. -/
def toInt16 (x : ℕ) : Int :=
  if x < 32768 then (x : Int) else (x : Int) - 65536

/-- Store an integer into a 16-bit cell: two's-complement wrap-around
(the effect of assigning to an `int16_t`/`uint16_t` lvalue). -/
def wrap16 (z : Int) : ℕ :=
  (z % 65536).toNat

/-- `size_t` width of the 32-bit Spresense target. -/
def SIZE_BOUND : ℕ := 2 ^ 32

/-- `size_t` arithmetic wraps modulo `2^32`. -/
def wrapSize (n : ℕ) : ℕ := n % SIZE_BOUND

theorem toInt16_wrap16 (z : Int) (h₁ : -32768 ≤ z) (h₂ : z < 32768) :
    toInt16 (wrap16 z) = z := by
  unfold toInt16 wrap16
  split <;> omega

/-! ## C9 — the RGB→YUV splitter (`src/src/camera_yuv.cpp:279-294`)

`rgb_to_yuv` converts one RGB888 pixel to YUV with the fixed BT.601
full-range matrix, using `int32_t` arithmetic (no overflow is possible:
all intermediate magnitudes stay below `2.6·10^8 < 2^31`), C division
(truncation towards zero), and a clamp to `[0,255]` before the cast to
`uint16_t`. -/

/-- The clamp `v < 0 ? 0 : (v > 255 ? 255 : v)` used by `rgb_to_yuv`. -/
def clamp255 (v : Int) : Int :=
  if v < 0 then 0 else if v > 255 then 255 else v

/-- Shallow embedding of `rgb_to_yuv` (src/src/camera_yuv.cpp:279-294).
Inputs are the `uint8_t` components; outputs the three `uint16_t`
samples.  `Int.tdiv` is C's `/` on `int32_t`. -/
def rgb_to_yuv (r g b : ℕ) : ℕ × ℕ × ℕ :=
  let y_val : Int :=
    Int.tdiv (299000 * (r : Int) + 587000 * (g : Int) + 114000 * (b : Int)) 1000000
  let u_val : Int :=
    Int.tdiv (-168736 * (r : Int) - 331264 * (g : Int) + 500000 * (b : Int)) 1000000 + 128
  let v_val : Int :=
    Int.tdiv (500000 * (r : Int) - 418688 * (g : Int) - 81312 * (b : Int)) 1000000 + 128
  ((clamp255 y_val).toNat, (clamp255 u_val).toNat, (clamp255 v_val).toNat)

/-- The conversion as the claim states it: `Y = (299000·R + 587000·G +
114000·B)/10^6`, `U = (−168736·R − 331264·G + 500000·B)/10^6 + 128`,
`V = (500000·R − 418688·G − 81312·B)/10^6 + 128` in exact integer
arithmetic (C division), each result clamped to `[0,255]` and stored as
a `uint16` sample.  Stated from the claim's words, to be compared with
`rgb_to_yuv` above. -/
def claimed_rgb_to_yuv (r g b : ℕ) : ℕ × ℕ × ℕ :=
  let y : Int := Int.tdiv (299000 * (r : Int) + 587000 * (g : Int) + 114000 * (b : Int)) 1000000
  let u : Int := Int.tdiv (-168736 * (r : Int) - 331264 * (g : Int) + 500000 * (b : Int)) 1000000 + 128
  let v : Int := Int.tdiv (500000 * (r : Int) - 418688 * (g : Int) - 81312 * (b : Int)) 1000000 + 128
  ((min 255 (max 0 y)).toNat, (min 255 (max 0 u)).toNat, (min 255 (max 0 v)).toNat)

theorem clamp255_eq_min_max (v : Int) : clamp255 v = min 255 (max 0 v) := by
  unfold clamp255
  split
  · omega
  · split <;> omega

theorem clamp255_toNat_le (v : Int) : (clamp255 v).toNat ≤ 255 := by
  unfold clamp255
  split
  · omega
  · split <;> omega

/-- Claim C9 — For every RGB pixel with components in `[0,255]`, the
splitter computes Y, U, V exactly as the fixed-point BT.601 formulas of
the claim state, clamps each result to `[0,255]`, and the stored
`uint16` sample is that clamped value (in particular it is `≤ 255`). -/
theorem rgb_to_yuv_matches_claim (r g b : ℕ) (hr : r ≤ 255) (hg : g ≤ 255) (hb : b ≤ 255) :
    rgb_to_yuv r g b = claimed_rgb_to_yuv r g b ∧
    (rgb_to_yuv r g b).1 ≤ 255 ∧ (rgb_to_yuv r g b).2.1 ≤ 255 ∧ (rgb_to_yuv r g b).2.2 ≤ 255 := by
  refine ⟨?_, ?_, ?_, ?_⟩
  · unfold rgb_to_yuv claimed_rgb_to_yuv
    simp only [clamp255_eq_min_max]
  all_goals exact clamp255_toNat_le _

/-- Witness for `rgb_to_yuv_matches_claim` at the concrete pixel
`(R,G,B) = (255, 0, 10)`. -/
theorem rgb_to_yuv_matches_claim_witness :
    rgb_to_yuv 255 0 10 = claimed_rgb_to_yuv 255 0 10 ∧
    (rgb_to_yuv 255 0 10).1 ≤ 255 ∧ (rgb_to_yuv 255 0 10).2.1 ≤ 255 ∧
    (rgb_to_yuv 255 0 10).2.2 ≤ 255 :=
  rgb_to_yuv_matches_claim 255 0 10 (by decide) (by decide) (by decide)

/-! ## C10 — the JPEG decoder output callback (`src/src/camera_yuv.cpp:46-135`)

`jpeg_output_func` receives a rectangle (inclusive coordinates) and a
packed RGB888 block.  It validates the rectangle against the image
dimensions before performing any write; each row `y ∈ [top,bottom]` of a
valid rectangle is written at file offset `y·W·3 + left·3` with length
`(right−left+1)·3` bytes.  We record the writes the callback performs as
a list of `(file offset, byte count)` pairs together with the callback's
return value (`false` = returned `0`, aborting the decode); the storage
`seek`/`write` primitives are taken as succeeding — their failure
branches also return `0`, and the claim's offsets concern the success
path. -/

/-- The inclusive rectangle handed to the callback (`JRECT`).
Coordinates are modelled as unbounded integers; the C `int` arithmetic
below cannot overflow for any coordinates the 16-bit decoder can
produce. -/
structure JRect where
  left : Int
  right : Int
  top : Int
  bottom : Int

/-- The row loop of `jpeg_output_func` (camera_yuv.cpp:74-101): for each
`y` of the rectangle, re-check `top + y < H`, then write the row at
offset `(top+y)·rowBytes + left·3`.  Returns the performed writes and
whether the loop completed. -/
def jpegOutputRows (W H lft top rectRowBytes : Int) : ℕ → ℕ → List (Int × Int) × Bool
  | _, 0 => ([], true)
  | y, Nat.succ rest =>
    let row : Int := top + y
    if H ≤ row then ([], false)
    else
      let fileOff : Int := row * (W * 3) + lft * 3
      let (ws, ok) := jpegOutputRows W H lft top rectRowBytes (y + 1) rest
      ((fileOff, rectRowBytes) :: ws, ok)

/-- Shallow embedding of `jpeg_output_func` (camera_yuv.cpp:46-135).
`fileOpen` is `stream_decode_ctx.rgb_file->isOpen()`.  The result is
`(writes performed, return value ≠ 0)`. -/
def jpeg_output_func (W H : Int) (fileOpen : Bool) (rect : JRect) :
    List (Int × Int) × Bool :=
  if fileOpen = false then ([], false)
  else
    let rect_width : Int := rect.right - rect.left + 1
    let rect_height : Int := rect.bottom - rect.top + 1
    if rect_width ≤ 0 ∨ rect_height ≤ 0 ∨
       rect.left < 0 ∨ rect.top < 0 ∨
       W ≤ rect.right ∨ H ≤ rect.bottom ∨
       rect.right < rect.left ∨ rect.bottom < rect.top then
      ([], false)
    else
      jpegOutputRows W H rect.left rect.top (rect_width * 3) 0 rect_height.toNat

/-- A rectangle is invalid in the claim's sense: a negative coordinate,
inverted (`left > right` or `top > bottom`), or extending past the image
bounds `[0,W−1] × [0,H−1]`. -/
def JRect.invalid (W H : Int) (rect : JRect) : Prop :=
  rect.left < 0 ∨ rect.top < 0 ∨ rect.right < 0 ∨ rect.bottom < 0 ∨
  rect.left > rect.right ∨ rect.top > rect.bottom ∨
  rect.right ≥ W ∨ rect.bottom ≥ H

instance (W H : Int) (rect : JRect) : Decidable (rect.invalid W H) := by
  unfold JRect.invalid; infer_instance

theorem jpegOutputRows_complete (W H lft top rb : Int) (y n : ℕ)
    (hlt : top + (y : Int) + (n : Int) ≤ H) :
    jpegOutputRows W H lft top rb y n =
      ((List.range n).map (fun (i : ℕ) =>
        ((top + (y : Int) + (i : Int)) * (W * 3) + lft * 3, rb)), true) := by
  induction n generalizing y with
  | zero => simp [jpegOutputRows]
  | succ m ih =>
    have hrow : ¬ H ≤ top + (y : Int) := by push_cast at hlt; omega
    have hih := ih (y + 1) (by push_cast at hlt ⊢; omega)
    simp only [jpegOutputRows, hrow, if_false, hih, List.range_succ_eq_map,
      List.map_cons, List.map_map, Prod.mk.injEq, List.cons.injEq, and_true]
    refine ⟨?_, List.map_congr_left ?_⟩
    · push_cast; ring
    · intro i _
      simp only [Function.comp_apply, Prod.mk.injEq, and_true]
      push_cast; ring

/-- Claim C10 — An invalid rectangle (negative, inverted, or out of
bounds) makes the callback return `0` without performing a single write;
a valid rectangle makes it write each row `y ∈ [top, bottom]` at file
offset `y·W·3 + left·3` with `(right−left+1)·3` bytes and return
success. -/
theorem jpeg_output_func_spec (W H : Int) (rect : JRect) :
    (rect.invalid W H → jpeg_output_func W H true rect = ([], false)) ∧
    (¬ rect.invalid W H →
      jpeg_output_func W H true rect =
        ((List.range (rect.bottom - rect.top + 1).toNat).map (fun (i : ℕ) =>
          ((rect.top + (i : Int)) * (W * 3) + rect.left * 3,
           (rect.right - rect.left + 1) * 3)), true)) := by
  unfold jpeg_output_func JRect.invalid
  simp only [Bool.true_eq_false, if_false]
  constructor
  · intro hinv
    rw [if_pos]
    omega
  · intro hval
    rw [if_neg (by omega)]
    rw [jpegOutputRows_complete]
    · congr 1
      apply List.map_congr_left
      intro i _
      congr 2
      push_cast
      ring
    · have h1 : rect.top ≤ rect.bottom := by omega
      have h2 : rect.bottom < H := by omega
      have : ((rect.bottom - rect.top + 1).toNat : Int) = rect.bottom - rect.top + 1 := by
        omega
      push_cast
      omega

/-- Witness for `jpeg_output_func_spec`: the valid rectangle
`[0,1]×[0,1]` in a 4×4 image writes two 6-byte rows at offsets 0 and
12. -/
theorem jpeg_output_func_spec_witness :
    (¬ JRect.invalid 4 4 ⟨0, 1, 0, 1⟩) ∧
    jpeg_output_func 4 4 true ⟨0, 1, 0, 1⟩ =
      ((List.range ((1 : Int) - 0 + 1).toNat).map (fun (i : ℕ) =>
        ((0 + (i : Int)) * ((4 : Int) * 3) + 0 * 3, ((1 : Int) - 0 + 1) * 3)), true) :=
  ⟨by decide, (jpeg_output_func_spec 4 4 ⟨0, 1, 0, 1⟩).2 (by decide)⟩

/-! ## C5 — the LL-mean pass (`src/src/flash_icer_compression.cpp:236-404`)

Step 2 of `compressYuvWithIcerFlash` reads the `LL(S)` subband of a
channel plane row by row (row `r` at file offset `r·W·2`), sums the
stored samples **as unsigned 16-bit values** into a `uint64_t`, and sets
`ll_mean = sum / (ll_w·ll_h)` (the `uint64_t` sum cannot wrap: it is
below `2^16 · 2^32`).  The pass fails with `ICER_INTEGER_OVERFLOW` when
`ll_mean > INT16_MAX`.  Step 2.5 then re-reads the subband and performs
`signed[i] = (int16_t)(signed[i] - (int16_t)ll_mean)` in place.  We
model the `LL(S)` buffer as the list of stored 16-bit patterns. -/

/-- The unsigned LL mean (flash_icer_compression.cpp:260-263). -/
def llMean (ll : List ℕ) : ℕ := ll.sum / ll.length

/-- The in-place mean subtraction (flash_icer_compression.cpp:361-365):
reinterpret each sample as `int16_t`, subtract the `int16_t` cast of the
mean, store the two's-complement result back. -/
def subtractMean (m : ℕ) (ll : List ℕ) : List ℕ :=
  ll.map (fun s => wrap16 (toInt16 s - toInt16 m))

/-- The LL-mean pass: compute the mean, fail (`ICER_INTEGER_OVERFLOW`)
when it exceeds `INT16_MAX`, otherwise write the subtracted subband back
(flash_icer_compression.cpp:269-279 and 361-365). -/
def llMeanPass (ll : List ℕ) : Option (List ℕ) :=
  let m := llMean ll
  if 32767 < m then none else some (subtractMean m ll)

/-- The mean of the written subband recomputed in signed arithmetic, as
the claim describes it: interpret each stored sample as `int16_t`, sum,
divide by the count with C (truncating) signed division. -/
def signedMean (ll : List ℕ) : Int :=
  Int.tdiv (ll.map toInt16).sum (ll.length : Int)

theorem sum_map_sub_cast (l : List ℕ) (c : Int) :
    (l.map (fun (s : ℕ) => (s : Int) - c)).sum = ((l.sum : Int) - (l.length : Int) * c) := by
  induction l with
  | nil => simp
  | cons a t ih =>
    simp only [List.map_cons, List.sum_cons, ih, List.length_cons]
    push_cast
    ring

/-- Claim C5 (counterexample) — For the channel plane whose `LL(S)`
subband holds the two stored samples `0xFFFF` (`−1` as `int16_t`) and
`0`, the pass succeeds (the unsigned mean `32767` passes the
`INT16_MAX` guard), yet the signed mean recomputed from the written
subband is `−32767`, not zero: the claim fails for planes with negative
`LL` coefficients because the mean is computed over the *unsigned*
sample values. -/
theorem llMeanPass_nonzero_mean_counterexample :
    llMeanPass [65535, 0] = some [32768, 32769] ∧
    signedMean [32768, 32769] = -32767 ∧
    Option.map signedMean (llMeanPass [65535, 0]) ≠ some 0 := by
  refine ⟨by decide, by decide, ?_⟩
  decide

/-- Claim C5 (amended) — For every nonempty channel plane whose `LL(S)`
samples are all nonnegative when interpreted as signed 16-bit values
(stored pattern `< 2^15`), the LL-mean pass succeeds and the mean of the
`LL(S)` subband recomputed from the written plane in signed arithmetic
equals zero. -/
theorem llMeanPass_zero_mean (ll : List ℕ) (hne : ll ≠ [])
    (hpos : ∀ s ∈ ll, s < 32768) :
    ∃ ll', llMeanPass ll = some ll' ∧ signedMean ll' = 0 := by
  have hlen : 0 < ll.length := List.length_pos.mpr hne
  have hsum : ll.sum ≤ ll.length * 32767 := by
    calc ll.sum ≤ ll.length • 32767 :=
          List.sum_le_card_nsmul ll 32767 (fun s hs => by have := hpos s hs; omega)
    _ = ll.length * 32767 := smul_eq_mul ..
  have hm : llMean ll ≤ 32767 := by
    unfold llMean
    calc ll.sum / ll.length ≤ ll.length * 32767 / ll.length :=
          Nat.div_le_div_right hsum
    _ = 32767 := by rw [Nat.mul_div_cancel_left _ hlen]
  refine ⟨subtractMean (llMean ll) ll, ?_, ?_⟩
  · unfold llMeanPass
    rw [if_neg (by omega)]
  · unfold signedMean subtractMean
    rw [List.map_map, List.length_map]
    have hmap : ll.map ((toInt16 ∘ fun s => wrap16 (toInt16 s - toInt16 (llMean ll)))) =
        ll.map (fun (s : ℕ) => (s : Int) - (llMean ll : Int)) := by
      refine List.map_congr_left ?_
      intro s hs
      have hs' := hpos s hs
      have h1 : toInt16 s = (s : Int) := by unfold toInt16; rw [if_pos hs']
      have h2 : toInt16 (llMean ll) = (llMean ll : Int) := by
        unfold toInt16; rw [if_pos (by omega)]
      simp only [Function.comp_apply, h1, h2]
      exact toInt16_wrap16 _ (by omega) (by omega)
    rw [hmap, sum_map_sub_cast]
    have hdm := Nat.div_add_mod ll.sum ll.length
    have hmod : ll.sum % ll.length < ll.length := Nat.mod_lt _ hlen
    have heq : (ll.sum : Int) - (ll.length : Int) * (llMean ll : Int) =
        ((ll.sum % ll.length : ℕ) : Int) := by
      unfold llMean
      rw [← Nat.cast_mul]
      omega
    rw [heq]
    exact Int.tdiv_eq_zero_of_lt (Int.natCast_nonneg _) (by exact_mod_cast hmod)

/-- Witness for `llMeanPass_zero_mean` at the concrete subband
`[1, 2]`. -/
theorem llMeanPass_zero_mean_witness :
    ∃ ll', llMeanPass [1, 2] = some ll' ∧ signedMean ll' = 0 :=
  llMeanPass_zero_mean [1, 2] (by decide) (by decide)

/-! ## C7 — packet-list construction (`src/src/flash_icer_compression.cpp:721-833`)

The scheduler builds `icer_packets_16` with three nested loops (stage
ascending, bit-plane `lsb` ascending, channel `Y,U,V` ascending).  The
`uint32_t` variable `priority` is set to `2^stage` at the top of each
stage iteration and then **mutated in place**: `if (chan ==
ICER_CHANNEL_Y) priority *= 2;` doubles it once per bit-plane iteration
(channel Y is visited first), and the doubled value persists for the U
and V channels of the same bit-plane and for every later bit-plane of
the same stage.  The HL and LH packets receive `priority << lsb`, HH
`((priority/2) << lsb) + 1`, and the final LL loop starts from
`priority = 2^stages` with the same accumulating doubling and assigns
`(2*priority) << lsb`.  All arithmetic is on `uint32_t`, hence reduced
`% 2^32`. -/

/-- Subband identifiers, with the numeric values of the library enum
`icer_subband_types` consumed by this repository (`LL=0, HL=1, LH=2,
HH=3`); only their distinctness and order matter here. -/
def ICER_SUBBAND_LL : ℕ := 0

/-- `ICER_SUBBAND_HL` (see `ICER_SUBBAND_LL`). -/
def ICER_SUBBAND_HL : ℕ := 1

/-- `ICER_SUBBAND_LH` (see `ICER_SUBBAND_LL`). -/
def ICER_SUBBAND_LH : ℕ := 2

/-- `ICER_SUBBAND_HH` (see `ICER_SUBBAND_LL`). -/
def ICER_SUBBAND_HH : ℕ := 3

/-- One entry of `icer_packets_16` (`icer_packet_context`). -/
structure PacketCtx where
  subband_type : ℕ
  decomp_level : ℕ
  ll_mean_val : ℕ
  lsb : ℕ
  priority : ℕ
  image_w : ℕ
  image_h : ℕ
  channel : ℕ
deriving DecidableEq

/-- The three HL/LH/HH packets emitted for one `(stage, lsb, chan)`
iteration (flash_icer_compression.cpp:729-799), given the value of the
`priority` variable after the Y-doubling. -/
def hlLhHhPackets (level b llm w h pr chan : ℕ) : List PacketCtx :=
  [⟨ICER_SUBBAND_HL, level, llm, b, wrapSize (pr * 2 ^ b), w, h, chan⟩,
   ⟨ICER_SUBBAND_LH, level, llm, b, wrapSize (pr * 2 ^ b), w, h, chan⟩,
   ⟨ICER_SUBBAND_HH, level, llm, b, wrapSize ((pr / 2) * 2 ^ b + 1), w, h, chan⟩]

/-- The bit-plane loop of one stage
(flash_icer_compression.cpp:725-801).  `pr` is the live value of the
mutable `priority` variable entering the iteration for bit-plane `b`;
`cnt` counts the remaining bit-planes.  Returns the packets emitted by
the rest of the stage. -/
def stageLsbLoop (level llm0 llm1 llm2 w h : ℕ) (pr b : ℕ) : ℕ → List PacketCtx
  | 0 => []
  | Nat.succ cnt =>
    let pr' := wrapSize (pr * 2)
    hlLhHhPackets level b llm0 w h pr' 0 ++
    hlLhHhPackets level b llm1 w h pr' 1 ++
    hlLhHhPackets level b llm2 w h pr' 2 ++
    stageLsbLoop level llm0 llm1 llm2 w h pr' (b + 1) cnt

/-- The stage loop (flash_icer_compression.cpp:723-802): stages
`k, k+1, …` for `cnt` further stages, each restarting `priority =
icer_pow_uint(2, k)`. -/
def stagesFrom (P llm0 llm1 llm2 w h : ℕ) (k : ℕ) : ℕ → List PacketCtx
  | 0 => []
  | Nat.succ cnt =>
    stageLsbLoop k llm0 llm1 llm2 w h (wrapSize (2 ^ k)) 0 P ++
    stagesFrom P llm0 llm1 llm2 w h (k + 1) cnt

/-- The final LL loop (flash_icer_compression.cpp:804-833): starts from
`priority = icer_pow_uint(2, stages)`, doubles on channel Y exactly as
the stage loops do, and emits one `LL` packet per `(lsb, chan)` with
priority `(2*priority) << lsb`. -/
def llLoop (S llm0 llm1 llm2 w h : ℕ) (pr b : ℕ) : ℕ → List PacketCtx
  | 0 => []
  | Nat.succ cnt =>
    let pr' := wrapSize (pr * 2)
    [⟨ICER_SUBBAND_LL, S, llm0, b, wrapSize (2 * pr' * 2 ^ b), w, h, 0⟩,
     ⟨ICER_SUBBAND_LL, S, llm1, b, wrapSize (2 * pr' * 2 ^ b), w, h, 1⟩,
     ⟨ICER_SUBBAND_LL, S, llm2, b, wrapSize (2 * pr' * 2 ^ b), w, h, 2⟩] ++
    llLoop S llm0 llm1 llm2 w h pr' (b + 1) cnt

/-- The complete packet list built by `compressYuvWithIcerFlash`
(flash_icer_compression.cpp:721-833), for `stages = S`, `P =
ICER_BITPLANES_TO_COMPRESS_16` bit-planes, per-channel LL means
`llm0/llm1/llm2`, and image dimensions `w × h`. -/
def buildPackets (S P llm0 llm1 llm2 w h : ℕ) : List PacketCtx :=
  stagesFrom P llm0 llm1 llm2 w h 1 S ++
  llLoop S llm0 llm1 llm2 w h (wrapSize (2 ^ S)) 0 P

theorem pow2_wrapSize {e : ℕ} (h : e < 32) : wrapSize (2 ^ e) = 2 ^ e := by
  unfold wrapSize SIZE_BOUND
  exact Nat.mod_eq_of_lt (Nat.pow_lt_pow_right one_lt_two h)

theorem hlLhHhPackets_mem {level b llm w h pr chan : ℕ}
    (hpr : pr = 2 ^ (level + b + 1)) (hb : level + 2 * b + 2 ≤ 32) :
    ∀ p ∈ hlLhHhPackets level b llm w h pr chan,
      p.decomp_level = level ∧ p.lsb = b ∧ p.subband_type ≠ ICER_SUBBAND_LL ∧
      ((p.subband_type = ICER_SUBBAND_HL ∨ p.subband_type = ICER_SUBBAND_LH) →
        p.priority = 2 ^ (level + 1 + 2 * b)) ∧
      (p.subband_type = ICER_SUBBAND_HH → p.priority = 2 ^ (level + 2 * b) + 1) := by
  have hhl : wrapSize (pr * 2 ^ b) = 2 ^ (level + 1 + 2 * b) := by
    rw [hpr, ← pow_add, show level + b + 1 + b = level + 1 + 2 * b by omega]
    exact pow2_wrapSize (by omega)
  have hdiv : pr / 2 = 2 ^ (level + b) := by
    rw [hpr, pow_succ]
    exact Nat.mul_div_cancel _ (by norm_num)
  have hhh : wrapSize (pr / 2 * 2 ^ b + 1) = 2 ^ (level + 2 * b) + 1 := by
    rw [hdiv, ← pow_add, show level + b + b = level + 2 * b by omega]
    unfold wrapSize SIZE_BOUND
    have : 2 ^ (level + 2 * b) < 2 ^ 31 :=
      Nat.pow_lt_pow_right one_lt_two (by omega)
    have h32 : (2 : ℕ) ^ 31 < 2 ^ 32 := by norm_num
    exact Nat.mod_eq_of_lt (by omega)
  intro p hp
  unfold hlLhHhPackets at hp
  simp only [List.mem_cons, List.not_mem_nil, or_false] at hp
  rcases hp with hp | hp | hp
  · subst hp
    refine ⟨rfl, rfl, by simp [ICER_SUBBAND_HL, ICER_SUBBAND_LL], fun _ => hhl,
      fun hc => by simp [ICER_SUBBAND_HL, ICER_SUBBAND_HH] at hc⟩
  · subst hp
    refine ⟨rfl, rfl, by simp [ICER_SUBBAND_LH, ICER_SUBBAND_LL], fun _ => hhl,
      fun hc => by simp [ICER_SUBBAND_LH, ICER_SUBBAND_HH] at hc⟩
  · subst hp
    refine ⟨rfl, rfl, by simp [ICER_SUBBAND_HH, ICER_SUBBAND_LL], ?_, fun _ => hhh⟩
    intro hc
    rcases hc with hc | hc <;> simp [ICER_SUBBAND_HL, ICER_SUBBAND_LH, ICER_SUBBAND_HH] at hc

theorem stageLsbLoop_mem {level llm0 llm1 llm2 w h : ℕ} :
    ∀ {b cnt pr : ℕ}, pr = 2 ^ (level + b) → level + 2 * (b + cnt) ≤ 32 →
    ∀ p ∈ stageLsbLoop level llm0 llm1 llm2 w h pr b cnt,
      p.decomp_level = level ∧ b ≤ p.lsb ∧ p.lsb < b + cnt ∧
      p.subband_type ≠ ICER_SUBBAND_LL ∧
      ((p.subband_type = ICER_SUBBAND_HL ∨ p.subband_type = ICER_SUBBAND_LH) →
        p.priority = 2 ^ (level + 1 + 2 * p.lsb)) ∧
      (p.subband_type = ICER_SUBBAND_HH → p.priority = 2 ^ (level + 2 * p.lsb) + 1) := by
  intro b cnt
  induction cnt generalizing b with
  | zero => intro pr _ _ p hp; cases hp
  | succ m ih =>
    intro pr hpr hbound p hp
    unfold stageLsbLoop at hp
    have hpr' : wrapSize (pr * 2) = 2 ^ (level + b + 1) := by
      rw [hpr, show (2 : ℕ) ^ (level + b) * 2 = 2 ^ (level + b + 1) from (pow_succ 2 _).symm]
      exact pow2_wrapSize (by omega)
    simp only [List.mem_append] at hp
    rcases hp with ((hp | hp) | hp) | hp
    · have := hlLhHhPackets_mem hpr' (by omega) p hp
      exact ⟨this.1, le_of_eq this.2.1.symm, by omega, this.2.2.1,
        fun hs => this.2.1 ▸ this.2.2.2.1 hs, fun hs => this.2.1 ▸ this.2.2.2.2 hs⟩
    · have := hlLhHhPackets_mem hpr' (by omega) p hp
      exact ⟨this.1, le_of_eq this.2.1.symm, by omega, this.2.2.1,
        fun hs => this.2.1 ▸ this.2.2.2.1 hs, fun hs => this.2.1 ▸ this.2.2.2.2 hs⟩
    · have := hlLhHhPackets_mem hpr' (by omega) p hp
      exact ⟨this.1, le_of_eq this.2.1.symm, by omega, this.2.2.1,
        fun hs => this.2.1 ▸ this.2.2.2.1 hs, fun hs => this.2.1 ▸ this.2.2.2.2 hs⟩
    · have := @ih (b + 1) (wrapSize (pr * 2)) (by rw [hpr']; ring_nf) (by omega) p hp
      exact ⟨this.1, by omega, by omega, this.2.2.2.1, this.2.2.2.2.1, this.2.2.2.2.2⟩

theorem llLoop_mem {S llm0 llm1 llm2 w h : ℕ} :
    ∀ {b cnt pr : ℕ}, pr = 2 ^ (S + b) → S + 2 * (b + cnt) + 1 ≤ 32 →
    ∀ p ∈ llLoop S llm0 llm1 llm2 w h pr b cnt,
      p.subband_type = ICER_SUBBAND_LL ∧ p.decomp_level = S ∧
      b ≤ p.lsb ∧ p.lsb < b + cnt ∧
      p.priority = 2 ^ (S + 2 + 2 * p.lsb) := by
  intro b cnt
  induction cnt generalizing b with
  | zero => intro pr _ _ p hp; cases hp
  | succ m ih =>
    intro pr hpr hbound p hp
    unfold llLoop at hp
    have hpr' : wrapSize (pr * 2) = 2 ^ (S + b + 1) := by
      rw [hpr, show (2 : ℕ) ^ (S + b) * 2 = 2 ^ (S + b + 1) from (pow_succ 2 _).symm]
      exact pow2_wrapSize (by omega)
    have hll : wrapSize (2 * wrapSize (pr * 2) * 2 ^ b) = 2 ^ (S + 2 + 2 * b) := by
      rw [hpr', show 2 * 2 ^ (S + b + 1) = 2 ^ (S + b + 2) by rw [pow_succ]; ring,
        ← pow_add, show S + b + 2 + b = S + 2 + 2 * b by omega]
      exact pow2_wrapSize (by omega)
    simp only [List.cons_append, List.nil_append, List.mem_cons] at hp
    rcases hp with hp | hp | hp | hp
    · subst hp; exact ⟨rfl, rfl, le_refl _, by show b < b + (m + 1); omega, hll⟩
    · subst hp; exact ⟨rfl, rfl, le_refl _, by show b < b + (m + 1); omega, hll⟩
    · subst hp; exact ⟨rfl, rfl, le_refl _, by show b < b + (m + 1); omega, hll⟩
    · have := @ih (b + 1) (wrapSize (pr * 2)) (by rw [hpr']; ring_nf) (by omega) p hp
      exact ⟨this.1, this.2.1, by omega, by omega, this.2.2.2.2⟩

theorem stagesFrom_mem {P llm0 llm1 llm2 w h : ℕ} :
    ∀ {k cnt : ℕ}, k + cnt + 2 * P ≤ 32 →
    ∀ p ∈ stagesFrom P llm0 llm1 llm2 w h k cnt,
      k ≤ p.decomp_level ∧ p.decomp_level < k + cnt ∧ p.lsb < P ∧
      p.subband_type ≠ ICER_SUBBAND_LL ∧
      ((p.subband_type = ICER_SUBBAND_HL ∨ p.subband_type = ICER_SUBBAND_LH) →
        p.priority = 2 ^ (p.decomp_level + 1 + 2 * p.lsb)) ∧
      (p.subband_type = ICER_SUBBAND_HH →
        p.priority = 2 ^ (p.decomp_level + 2 * p.lsb) + 1) := by
  intro k cnt
  induction cnt generalizing k with
  | zero => intro _ p hp; cases hp
  | succ m ih =>
    intro hbound p hp
    unfold stagesFrom at hp
    simp only [List.mem_append] at hp
    rcases hp with hp | hp
    · have hwrap : wrapSize (2 ^ k) = 2 ^ (k + 0) := by
        rw [Nat.add_zero]; exact pow2_wrapSize (by omega)
      have := stageLsbLoop_mem hwrap (by omega) p hp
      refine ⟨le_of_eq this.1.symm, by omega, by omega, this.2.2.2.1, ?_, ?_⟩
      · intro hs; rw [this.1]; exact this.2.2.2.2.1 hs
      · intro hs; rw [this.1]; exact this.2.2.2.2.2 hs
    · have := @ih (k + 1) (by omega) p hp
      exact ⟨by omega, by omega, this.2.2.1, this.2.2.2.1, this.2.2.2.2.1, this.2.2.2.2.2⟩

/-- Claim C7 (amended) — In the packet list built by the scheduler, for
every stage `k ∈ [1, S]`, bit-plane `b < P` and channel `c`, the HL and
LH packets have priority `2^(k+1+2b)`, the HH packets
`2^(k+2b) + 1`, and the LL(S) packets `2^(S+2+2b)` — **identically for
the three channels**: the `priority *= 2` Y-doubling mutates the shared
variable, so U and V inherit the doubled value and the doubling
accumulates once per bit-plane.  (Stated for parameters with
`S + 2P < 32`, where no `uint32_t` shift wraps.) -/
theorem buildPackets_priority_formula (S P llm0 llm1 llm2 w h : ℕ)
    (hbound : S + 2 * P < 32) :
    ∀ p ∈ buildPackets S P llm0 llm1 llm2 w h,
      ((p.subband_type = ICER_SUBBAND_HL ∨ p.subband_type = ICER_SUBBAND_LH) →
        p.priority = 2 ^ (p.decomp_level + 1 + 2 * p.lsb)) ∧
      (p.subband_type = ICER_SUBBAND_HH →
        p.priority = 2 ^ (p.decomp_level + 2 * p.lsb) + 1) ∧
      (p.subband_type = ICER_SUBBAND_LL →
        p.decomp_level = S ∧ p.priority = 2 ^ (S + 2 + 2 * p.lsb)) := by
  intro p hp
  unfold buildPackets at hp
  simp only [List.mem_append] at hp
  rcases hp with hp | hp
  · have := stagesFrom_mem (by omega) p hp
    exact ⟨this.2.2.2.2.1, this.2.2.2.2.2, fun hs => absurd hs this.2.2.2.1⟩
  · have hwrap : wrapSize (2 ^ S) = 2 ^ (S + 0) := by
      rw [Nat.add_zero]; exact pow2_wrapSize (by omega)
    have := llLoop_mem hwrap (by omega) p hp
    refine ⟨?_, ?_, fun _ => ⟨this.2.1, this.2.2.2.2⟩⟩
    · intro hs
      rcases hs with hs | hs <;> rw [this.1] at hs <;>
        simp [ICER_SUBBAND_LL, ICER_SUBBAND_HL, ICER_SUBBAND_LH] at hs
    · intro hs
      rw [this.1] at hs
      simp [ICER_SUBBAND_LL, ICER_SUBBAND_HH] at hs

/-- Witness for `buildPackets_priority_formula`: with `S = 1`, `P = 1`
the first packet of the list (stage 1, bit-plane 0, channel Y, HL)
exists and the theorem applies to it. -/
theorem buildPackets_priority_formula_witness :
    (1 + 2 * 1 < 32) ∧
    (((buildPackets 1 1 5 6 7 8 8).head? = some ⟨ICER_SUBBAND_HL, 1, 5, 0, 4, 8, 8, 0⟩) ∧
     ∀ p ∈ buildPackets 1 1 5 6 7 8 8,
      ((p.subband_type = ICER_SUBBAND_HL ∨ p.subband_type = ICER_SUBBAND_LH) →
        p.priority = 2 ^ (p.decomp_level + 1 + 2 * p.lsb)) ∧
      (p.subband_type = ICER_SUBBAND_HH →
        p.priority = 2 ^ (p.decomp_level + 2 * p.lsb) + 1) ∧
      (p.subband_type = ICER_SUBBAND_LL →
        p.decomp_level = 1 ∧ p.priority = 2 ^ (1 + 2 + 2 * p.lsb))) :=
  ⟨by decide, by decide, buildPackets_priority_formula 1 1 5 6 7 8 8 (by decide)⟩

/-- Claim C7 (counterexample) — With `stages = 1` and one bit-plane, the
claim's formula fails: the claim assigns the channel-U HL packet at
stage 1, bit-plane 0 priority `base << 0` with `base = 2^1 = 2` (no
doubling for a chrominance channel), but the built list gives it
priority `4`; moreover the channel-Y HL packet has priority `4` as
well, so Y is **not** strictly higher than U at the same stage and
bit-plane. -/
theorem buildPackets_claim_counterexample :
    ((buildPackets 1 1 5 6 7 8 8).get? 3 = some ⟨ICER_SUBBAND_HL, 1, 6, 0, 4, 8, 8, 1⟩) ∧
    (4 : ℕ) ≠ 2 ^ 1 * 2 ^ 0 ∧
    ((buildPackets 1 1 5 6 7 8 8).get? 0 = some ⟨ICER_SUBBAND_HL, 1, 5, 0, 4, 8, 8, 0⟩) := by
  refine ⟨by decide, by decide, by decide⟩

/-! ## C3 — canonical segment emission order
(`src/src/flash_icer_compression.cpp:994-1054`)

After all packets are processed, the emitter walks
`icer_rearrange_segments_16` in a fixed five-deep loop nest — segment
index `k` ascending, subband `j` descending, stage `i` descending,
bit-plane descending, channel ascending — and streams every non-null
entry to the output file.  The table itself is populated during packet
processing: the partition coder stores each sealed segment at its
`(channel, stage, subband, bit-plane, segment)` slot
(flash_icer_compression.cpp:951, flash_partition.cpp:182/287), so the
table, and hence the emitted byte stream, depends only on the slot
contents and not on the order in which the packets were coded. -/

/-- The five-dimensional index of `icer_rearrange_segments_16`. -/
structure SegKey where
  chan : ℕ
  stage : ℕ
  subband : ℕ
  lsb : ℕ
  seg : ℕ
deriving DecidableEq

/-- The traversal order of the emission loop nest
(flash_icer_compression.cpp:994-998): `k = 0..ICER_MAX_SEGMENTS`
ascending, `j = ICER_SUBBAND_MAX..0` descending,
`i = ICER_MAX_DECOMP_STAGES..0` descending,
`lsb = P−1..0` descending, `chan = 0..2` ascending.  The library bounds
`maxSeg`, `maxSub`, `maxStage`, `P` are kept as parameters. -/
def emissionOrder (maxSeg maxSub maxStage P : ℕ) : List SegKey :=
  (List.range (maxSeg + 1)).flatMap (fun k =>
    (List.range (maxSub + 1)).reverse.flatMap (fun j =>
      (List.range (maxStage + 1)).reverse.flatMap (fun i =>
        (List.range P).reverse.flatMap (fun b =>
          (List.range 3).map (fun c => ⟨c, i, j, b, k⟩)))))

/-- The bytes the emitter writes
(flash_icer_compression.cpp:999-1033): for each non-null table entry,
in canonical order, `sizeof(header) + ⌈data_length/8⌉` bytes — the
header with the channel bits OR-ed into `lsb_chan`, then the payload.
What those bytes are is a pure function of the slot key and the sealed
segment record, abstracted here as `render`. -/
def emitBytes {Seg : Type} (render : SegKey → Seg → List ℕ)
    (maxSeg maxSub maxStage P : ℕ) (table : SegKey → Option Seg) : List ℕ :=
  (emissionOrder maxSeg maxSub maxStage P).flatMap (fun key =>
    match table key with
    | none => []
    | some s => render key s)

/-- Registration of sealed segments in `icer_rearrange_segments_16`
during packet processing: each update stores a segment record at its
slot, in processing order, over an all-`NULL` initial table
(flash_icer_compression.cpp:843-853 and 951). -/
def registerSegments {Seg : Type} (updates : List (SegKey × Seg)) :
    SegKey → Option Seg :=
  updates.foldl (fun t u => fun k => if k = u.1 then some u.2 else t k)
    (fun _ => none)

theorem foldl_update_perm {Seg : Type} {l₁ l₂ : List (SegKey × Seg)}
    (hp : l₁.Perm l₂) (hnd : (l₁.map Prod.fst).Nodup) :
    ∀ init : SegKey → Option Seg,
      l₁.foldl (fun t u => fun k => if k = u.1 then some u.2 else t k) init =
      l₂.foldl (fun t u => fun k => if k = u.1 then some u.2 else t k) init := by
  induction hp with
  | nil => intro init; rfl
  | cons x _ ih =>
    intro init
    simp only [List.foldl_cons]
    exact ih (by simpa using (List.nodup_cons.mp (by simpa using hnd)).2) _
  | swap x y l =>
    intro init
    simp only [List.foldl_cons]
    have hxy : y.1 ≠ x.1 := by
      simp only [List.map_cons, List.nodup_cons, List.mem_cons] at hnd
      exact fun h => hnd.1 (Or.inl h)
    congr 1
    funext k
    by_cases h1 : k = x.1 <;> by_cases h2 : k = y.1
    · exact absurd (h2.symm.trans h1) hxy
    · simp [h1, h2, Ne.symm hxy]
    · simp [h1, h2, hxy]
    · simp [h1, h2]
  | trans h1 _ ih1 ih2 =>
    intro init
    rw [ih1 hnd init]
    exact ih2 ((h1.map Prod.fst).nodup_iff.mp hnd) init

theorem registerSegments_perm {Seg : Type} {l₁ l₂ : List (SegKey × Seg)}
    (hp : l₁.Perm l₂) (hnd : (l₁.map Prod.fst).Nodup) :
    registerSegments l₁ = registerSegments l₂ :=
  foldl_update_perm hp hnd _

/-- Claim C3 — The emitter writes the non-null segments in the fixed
canonical order `emissionOrder` (by definition of the loop nest), and
the emitted bytes are invariant under permuting the packet-processing
order: two runs that register the same sealed segments at the same
(pairwise distinct) slots, in any two orders, emit identical output
bytes. -/
theorem emission_independent_of_coding_order {Seg : Type}
    (render : SegKey → Seg → List ℕ) (maxSeg maxSub maxStage P : ℕ)
    (updates₁ updates₂ : List (SegKey × Seg))
    (hperm : updates₁.Perm updates₂)
    (hnd : (updates₁.map Prod.fst).Nodup) :
    emitBytes render maxSeg maxSub maxStage P (registerSegments updates₁) =
    emitBytes render maxSeg maxSub maxStage P (registerSegments updates₂) := by
  rw [registerSegments_perm hperm hnd]

/-- Witness for `emission_independent_of_coding_order`: two slots coded
in opposite orders emit the same bytes. -/
theorem emission_independent_of_coding_order_witness :
    emitBytes (fun _ s => [s]) 1 3 2 2
      (registerSegments [(⟨0, 0, 0, 0, 0⟩, 7), (⟨1, 0, 0, 0, 0⟩, 9)]) =
    emitBytes (fun _ s => [s]) 1 3 2 2
      (registerSegments [(⟨1, 0, 0, 0, 0⟩, 9), (⟨0, 0, 0, 0, 0⟩, 7)]) :=
  emission_independent_of_coding_order (fun _ s => [s]) 1 3 2 2 _ _
    (by decide) (by decide)

/-! ## C4 — output size accounting and verification
(`src/src/flash_icer_compression.cpp:987-1124`)

The rearrange loop accumulates `rearrange_offset += len` for every
non-null segment, with `len = ⌈data_length/8⌉ + sizeof(header)`
(line 1008), writing exactly `len` bytes through the flash callback
into the freshly created output file (positioned at 0); any short write
aborts with `ICER_FATAL_ERROR`.  Then `output.size_used =
rearrange_offset`, the file is closed, re-opened, and its reported size
compared against `size_used`: equality is the only success path
(`result.compressed_size = size_used`), a mismatch removes the output
file and returns `-113`, and a failed re-open returns `-114`. -/

/-- The sealed segment record, reduced to the field the emitter's
length computation reads (`data_length`, in bits). -/
structure SegRecord where
  data_length : ℕ
deriving DecidableEq

/-- `icer_ceil_div_uint32(data_length, 8) + sizeof(icer_image_segment_typedef)`
(flash_icer_compression.cpp:1008-1009).  `hdrSize` stands for the
library's `sizeof(icer_image_segment_typedef)`. -/
def segLen (hdrSize : ℕ) (s : SegRecord) : ℕ :=
  (s.data_length + 7) / 8 + hdrSize

/-- Opaque stand-in for the library constant `ICER_FATAL_ERROR`; no
theorem depends on its value, only on the `0 = OK` convention. -/
def ICER_FATAL_ERROR : Int := -1000

/-- The rearrange loop (flash_icer_compression.cpp:994-1054) over the
canonical key order: skips null slots and, for each non-null segment,
writes `segLen` bytes through the callback (`writeOk` = every callback
write returns the full length) and advances `rearrange_offset`.
Returns `none` on a short write (`ICER_FATAL_ERROR` path), otherwise
`(bytes in output file, rearrange_offset)`. -/
def rearrangeLoop (hdrSize : ℕ) (writeOk : Bool) (table : SegKey → Option SegRecord) :
    List SegKey → ℕ → ℕ → Option (ℕ × ℕ)
  | [], fileBytes, off => some (fileBytes, off)
  | key :: rest, fileBytes, off =>
    match table key with
    | none => rearrangeLoop hdrSize writeOk table rest fileBytes off
    | some s =>
      let len := segLen hdrSize s
      if writeOk then rearrangeLoop hdrSize writeOk table rest (fileBytes + len) (off + len)
      else none

/-- The sum `Σ (sizeof(header) + ⌈data_length/8⌉)` over all non-null
segments of the table, in canonical order. -/
def rearrangeTotal (hdrSize maxSeg maxSub maxStage P : ℕ)
    (table : SegKey → Option SegRecord) : ℕ :=
  ((emissionOrder maxSeg maxSub maxStage P).map (fun key =>
    match table key with
    | none => 0
    | some s => segLen hdrSize s)).sum

/-- Result of the tail of `compressYuvWithIcerFlash`. -/
structure EmitResult where
  error_code : Int
  success : Bool
  compressed_size : ℕ
  fileBytes : ℕ
deriving DecidableEq

/-- Steps 5–6 of `compressYuvWithIcerFlash`
(flash_icer_compression.cpp:987-1124): run the rearrange loop and
verify the output file size.  `reported` maps the actual number of
bytes in the output file to the size the re-opened file reports
(`verify_file->size()`); an honest storage layer is `reported = id`. -/
def emitAndVerify (hdrSize maxSeg maxSub maxStage P : ℕ)
    (table : SegKey → Option SegRecord) (writeOk verifyOpenOk : Bool)
    (reported : ℕ → ℕ) : EmitResult :=
  match rearrangeLoop hdrSize writeOk table (emissionOrder maxSeg maxSub maxStage P) 0 0 with
  | none => ⟨ICER_FATAL_ERROR, false, 0, 0⟩
  | some (fileBytes, off) =>
    if verifyOpenOk = false then ⟨-114, false, 0, fileBytes⟩
    else if reported fileBytes = off then ⟨0, true, off, fileBytes⟩
    else ⟨-113, false, 0, fileBytes⟩

theorem rearrangeLoop_total (hdrSize : ℕ) (table : SegKey → Option SegRecord) :
    ∀ (keys : List SegKey) (fileBytes off : ℕ),
      rearrangeLoop hdrSize true table keys fileBytes off =
        some (fileBytes + ((keys.map (fun key =>
            match table key with
            | none => 0
            | some s => segLen hdrSize s)).sum),
          off + ((keys.map (fun key =>
            match table key with
            | none => 0
            | some s => segLen hdrSize s)).sum)) := by
  intro keys
  induction keys with
  | nil => intro fileBytes off; simp [rearrangeLoop]
  | cons key rest ih =>
    intro fileBytes off
    unfold rearrangeLoop
    cases htk : table key with
    | none => simp [htk, ih, Nat.add_assoc]
    | some s => simp [htk, ih, Nat.add_assoc]


theorem rearrangeLoop_some (hdrSize : ℕ) (wOk : Bool) (table : SegKey → Option SegRecord) :
    ∀ (keys : List SegKey) (fileBytes off fb' off' : ℕ),
      rearrangeLoop hdrSize wOk table keys fileBytes off = some (fb', off') →
      fb' = fileBytes + ((keys.map (fun key =>
          match table key with
          | none => 0
          | some s => segLen hdrSize s)).sum) ∧
      off' = off + ((keys.map (fun key =>
          match table key with
          | none => 0
          | some s => segLen hdrSize s)).sum) := by
  intro keys
  induction keys with
  | nil =>
    intro fileBytes off fb' off' h
    unfold rearrangeLoop at h
    simp only [Option.some.injEq, Prod.mk.injEq] at h
    simp [← h.1, ← h.2]
  | cons key rest ih =>
    intro fileBytes off fb' off' h
    unfold rearrangeLoop at h
    cases htk : table key with
    | none =>
      rw [htk] at h
      have := ih _ _ _ _ h
      simp [htk, this.1, this.2]
    | some s =>
      rw [htk] at h
      cases wOk with
      | false => simp at h
      | true =>
        simp only [if_true] at h
        have := ih _ _ _ _ h
        simp [htk, this.1, this.2]
        omega

/-- Claim C4 — For every run of the emission-and-verify tail: a
successful return implies the output file holds exactly
`Σ (sizeof(header) + ⌈data_length/8⌉)` bytes over the non-null
segments and `compressed_size` equals that sum; and whenever the
re-opened file reports a size different from that sum (with the
emission writes themselves having succeeded), the pipeline returns the
size-mismatch code `-113` instead of success. -/
theorem emitAndVerify_size_spec (hdrSize maxSeg maxSub maxStage P : ℕ)
    (table : SegKey → Option SegRecord) (writeOk verifyOpenOk : Bool)
    (reported : ℕ → ℕ) :
    ((emitAndVerify hdrSize maxSeg maxSub maxStage P table writeOk verifyOpenOk reported).success = true →
      (emitAndVerify hdrSize maxSeg maxSub maxStage P table writeOk verifyOpenOk reported).fileBytes =
        rearrangeTotal hdrSize maxSeg maxSub maxStage P table ∧
      (emitAndVerify hdrSize maxSeg maxSub maxStage P table writeOk verifyOpenOk reported).compressed_size =
        rearrangeTotal hdrSize maxSeg maxSub maxStage P table) ∧
    (writeOk = true → verifyOpenOk = true →
      reported (rearrangeTotal hdrSize maxSeg maxSub maxStage P table) ≠
        rearrangeTotal hdrSize maxSeg maxSub maxStage P table →
      (emitAndVerify hdrSize maxSeg maxSub maxStage P table writeOk verifyOpenOk reported).error_code = -113 ∧
      (emitAndVerify hdrSize maxSeg maxSub maxStage P table writeOk verifyOpenOk reported).success = false) := by
  constructor
  · intro hs
    unfold emitAndVerify at hs ⊢
    cases hloop : rearrangeLoop hdrSize writeOk table (emissionOrder maxSeg maxSub maxStage P) 0 0 with
    | none => rw [hloop] at hs; simp at hs
    | some st =>
      obtain ⟨fb, off⟩ := st
      have htot := rearrangeLoop_some hdrSize writeOk table _ _ _ _ _ hloop
      rw [hloop] at hs
      dsimp only at hs ⊢
      cases verifyOpenOk with
      | false => simp at hs
      | true =>
        simp only [Bool.true_eq_false, if_false] at hs ⊢
        by_cases hr : reported fb = off
        · rw [if_pos hr]
          unfold rearrangeTotal
          simp only [Nat.zero_add] at htot
          exact ⟨htot.1, htot.2⟩
        · rw [if_neg hr] at hs
          simp at hs
  · intro hw hvo hr
    subst hw
    subst hvo
    have hloop := rearrangeLoop_total hdrSize table (emissionOrder maxSeg maxSub maxStage P) 0 0
    unfold emitAndVerify
    rw [hloop]
    simp only [Nat.zero_add, Bool.true_eq_false, if_false]
    unfold rearrangeTotal at hr
    rw [if_neg hr]
    exact ⟨rfl, rfl⟩

/-- Witness for `emitAndVerify_size_spec`: a one-segment table
(`data_length = 12` bits, 4-byte header) emits `4 + 2 = 6` bytes; with
an honest storage layer the run succeeds with that size, and the
theorem's conclusions hold at this input. -/
theorem emitAndVerify_size_spec_witness :
    ((emitAndVerify 4 0 0 0 1
        (fun k => if k = ⟨0, 0, 0, 0, 0⟩ then some ⟨12⟩ else none)
        true true id).success = true →
      (emitAndVerify 4 0 0 0 1
        (fun k => if k = ⟨0, 0, 0, 0, 0⟩ then some ⟨12⟩ else none)
        true true id).fileBytes =
        rearrangeTotal 4 0 0 0 1
          (fun k => if k = ⟨0, 0, 0, 0, 0⟩ then some ⟨12⟩ else none) ∧
      (emitAndVerify 4 0 0 0 1
        (fun k => if k = ⟨0, 0, 0, 0, 0⟩ then some ⟨12⟩ else none)
        true true id).compressed_size =
        rearrangeTotal 4 0 0 0 1
          (fun k => if k = ⟨0, 0, 0, 0, 0⟩ then some ⟨12⟩ else none)) ∧
    (true = true → true = true →
      id (rearrangeTotal 4 0 0 0 1
          (fun k => if k = ⟨0, 0, 0, 0, 0⟩ then some ⟨12⟩ else none)) ≠
        rearrangeTotal 4 0 0 0 1
          (fun k => if k = ⟨0, 0, 0, 0, 0⟩ then some ⟨12⟩ else none) →
      (emitAndVerify 4 0 0 0 1
        (fun k => if k = ⟨0, 0, 0, 0, 0⟩ then some ⟨12⟩ else none)
        true true id).error_code = -113 ∧
      (emitAndVerify 4 0 0 0 1
        (fun k => if k = ⟨0, 0, 0, 0, 0⟩ then some ⟨12⟩ else none)
        true true id).success = false) :=
  emitAndVerify_size_spec 4 0 0 0 1
    (fun k => if k = ⟨0, 0, 0, 0, 0⟩ then some ⟨12⟩ else none) true true id

/-! ## C6 — per-stage frame effect of the wavelet engine
(`src/src/flash_wavelet.cpp:278-361` and `684-763`)

For a stage with index `> 0` (decomposition level `k > 1`), the column
pass writes into `_wavelet_stage_temp.tmp`, which is first filled with
a byte-exact copy of the whole `W·H·2`-byte output plane
(flash_wavelet.cpp:279-361); the batched column writes then touch only
sample offsets `row·W + col` with `row < current_h`, `col < current_w`
(lines 584-673), and the stage temp is finally copied back over the
output plane (lines 684-763).  Offsets and lengths are all multiples of
2 bytes, so the plane is modelled at `uint16`-sample granularity; the
values produced by the 1-D library kernel are abstracted as `newVals`
(the frame effect does not depend on them).  The overflow-guard failure
paths abort the stage and are the subject of C2, not of this claim. -/

/-- A storage-resident plane file at sample granularity. -/
structure PlaneFile where
  size : ℕ
  data : ℕ → ℕ

/-- A `write` of `len` samples at sample offset `off`: overwrites the
range, extending the file when the write runs past end-of-file
(storage contract, §4.A of the spec). -/
def writeRun (f : PlaneFile) (off len : ℕ) (vals : ℕ → ℕ) : PlaneFile :=
  { size := max f.size (off + len)
    data := fun i => if off ≤ i ∧ i < off + len then vals (i - off) else f.data i }

/-- The per-batch row loop of phase 2C (flash_wavelet.cpp:584-673):
for `cnt` rows starting at `row`, write the `cib` columns of the batch
at sample offset `row·W + colStart`. -/
def colPassRows (W : ℕ) (newVals : ℕ → ℕ → ℕ) (colStart cib : ℕ) :
    ℕ → ℕ → PlaneFile → PlaneFile
  | _, 0, f => f
  | row, Nat.succ cnt, f =>
    colPassRows W newVals colStart cib (row + 1) cnt
      (writeRun f (row * W + colStart) cib (fun j => newVals (colStart + j) row))

/-- The batch loop of phase 2 (flash_wavelet.cpp:451-674): one row loop
per batch start, with `cols_in_batch = min batch_size (current_w −
col_start)`. -/
def colPassBatches (W ch cw B : ℕ) (newVals : ℕ → ℕ → ℕ) :
    List ℕ → PlaneFile → PlaneFile
  | [], f => f
  | cs :: rest, f =>
    colPassBatches W ch cw B newVals rest
      (colPassRows W newVals cs (min B (cw - cs)) 0 ch f)

/-- The batch starts `0, B, 2B, …` below `current_w`
(flash_wavelet.cpp:451: `for col_start = 0; col_start < current_w;
col_start += batch_size`). -/
def batchStarts (cw B : ℕ) : List ℕ :=
  (List.range ((cw + B - 1) / B)).map (· * B)

/-- One stage with index `> 0` of `streamingWaveletTransform`
(flash_wavelet.cpp:278-361, 451-674, 684-763): copy the output plane
into the stage temp, run the batched column-pass writes over the
`current_w × current_h` LL region, and copy the stage temp back. -/
def waveletStageGT1 (W H cw ch B : ℕ) (newVals : ℕ → ℕ → ℕ)
    (out : PlaneFile) : PlaneFile :=
  let stageTemp : PlaneFile := { size := W * H, data := out.data }
  let written := colPassBatches W ch cw B newVals (batchStarts cw B) stageTemp
  { size := written.size, data := written.data }

/-- The dimension update `current_w = current_w / 2 + current_w % 2`
applied once per completed stage (flash_wavelet.cpp:774-775). -/
def dimAfter (n : ℕ) : ℕ → ℕ
  | 0 => n
  | k + 1 => dimAfter n k / 2 + dimAfter n k % 2

theorem dimAfter_le (n k : ℕ) : dimAfter n k ≤ n := by
  induction k with
  | zero => exact le_refl n
  | succ m ih =>
    unfold dimAfter
    omega

theorem rowcol_unique {W y x row c : ℕ} (hx : x < W) (hc : c < W)
    (h : y * W + x = row * W + c) : y = row ∧ x = c := by
  have h1 : (y * W + x) / W = y := by
    rw [Nat.mul_comm y W, Nat.mul_add_div (by omega), Nat.div_eq_of_lt hx, Nat.add_zero]
  have h2 : (row * W + c) / W = row := by
    rw [Nat.mul_comm row W, Nat.mul_add_div (by omega), Nat.div_eq_of_lt hc, Nat.add_zero]
  have hy : y = row := by rw [← h1, h, h2]
  subst hy
  omega

theorem writeRun_size {f : PlaneFile} {off len : ℕ} (vals : ℕ → ℕ)
    (h : off + len ≤ f.size) : (writeRun f off len vals).size = f.size := by
  unfold writeRun
  simp only
  omega

theorem writeRun_frame {f : PlaneFile} {off len : ℕ} (vals : ℕ → ℕ) {i : ℕ}
    (h : i < off ∨ off + len ≤ i) : (writeRun f off len vals).data i = f.data i := by
  unfold writeRun
  simp only
  rw [if_neg (by omega)]

theorem colPassRows_spec {W H cw ch : ℕ} (newVals : ℕ → ℕ → ℕ) {cs cib : ℕ}
    (hcs : cs + cib ≤ cw) (hcw : cw ≤ W) (hch : ch ≤ H) :
    ∀ {cnt row : ℕ} {f : PlaneFile}, row + cnt ≤ ch → f.size = W * H →
      (colPassRows W newVals cs cib row cnt f).size = W * H ∧
      (∀ x y, x < W → y < H → (cw ≤ x ∨ ch ≤ y) →
        (colPassRows W newVals cs cib row cnt f).data (y * W + x) =
          f.data (y * W + x)) := by
  intro cnt
  induction cnt with
  | zero =>
    intro row f _ hf
    exact ⟨hf, fun _ _ _ _ _ => rfl⟩
  | succ m ih =>
    intro row f hrow hf
    unfold colPassRows
    have hoff : row * W + cs + cib ≤ W * H := by
      have h4 : (row + 1) * W ≤ H * W := Nat.mul_le_mul_right W (by omega)
      have h3 : (row + 1) * W = row * W + W := by ring
      have h5 : W * H = H * W := Nat.mul_comm W H
      omega
    have hwsize : (writeRun f (row * W + cs) cib
        (fun j => newVals (cs + j) row)).size = W * H := by
      rw [writeRun_size _ (by omega)]
      exact hf
    obtain ⟨ihsize, ihframe⟩ := @ih (row + 1)
      (writeRun f (row * W + cs) cib (fun j => newVals (cs + j) row))
      (by omega) hwsize
    refine ⟨ihsize, ?_⟩
    intro x y hx hy hout
    rw [ihframe x y hx hy hout]
    apply writeRun_frame
    by_contra hcon
    push_neg at hcon
    obtain ⟨hlo, hhi⟩ := hcon
    have hcW : y * W + x - row * W < W := by omega
    have heq : y * W + x = row * W + (y * W + x - row * W) := by omega
    obtain ⟨hyrow, hxc⟩ := rowcol_unique hx hcW heq
    omega

theorem colPassBatches_spec {W H cw ch B : ℕ} (newVals : ℕ → ℕ → ℕ)
    (hcw : cw ≤ W) (hch : ch ≤ H) :
    ∀ (starts : List ℕ) {f : PlaneFile}, (∀ cs ∈ starts, cs ≤ cw) →
      f.size = W * H →
      (colPassBatches W ch cw B newVals starts f).size = W * H ∧
      (∀ x y, x < W → y < H → (cw ≤ x ∨ ch ≤ y) →
        (colPassBatches W ch cw B newVals starts f).data (y * W + x) =
          f.data (y * W + x)) := by
  intro starts
  induction starts with
  | nil =>
    intro f _ hf
    exact ⟨hf, fun _ _ _ _ _ => rfl⟩
  | cons cs rest ih =>
    intro f hstarts hf
    unfold colPassBatches
    have hcs : cs ≤ cw := hstarts cs (List.mem_cons_self cs rest)
    have h1 := @colPassRows_spec W H cw ch newVals cs (min B (cw - cs))
      (by omega) hcw hch ch 0 f (by omega) hf
    obtain ⟨hsz, hfr⟩ := @ih (colPassRows W newVals cs (min B (cw - cs)) 0 ch f)
      (fun c hc => hstarts c (List.mem_cons_of_mem cs hc)) h1.1
    refine ⟨hsz, ?_⟩
    intro x y hx hy hout
    rw [hfr x y hx hy hout, h1.2 x y hx hy hout]

theorem batchStarts_le (cw B : ℕ) (hB : 1 ≤ B) :
    ∀ cs ∈ batchStarts cw B, cs ≤ cw := by
  intro cs hcs
  unfold batchStarts at hcs
  simp only [List.mem_map, List.mem_range] at hcs
  obtain ⟨k, hk, rfl⟩ := hcs
  have hmul : (k + 1) * B ≤ cw + B - 1 :=
    (Nat.le_div_iff_mul_le hB).mp hk
  have hexp : (k + 1) * B = k * B + B := by ring
  omega

/-- Claim C6 — For every wavelet stage of index `> 0` (decomposition
level `k > 1`, current LL dimensions `dimAfter W s × dimAfter H s`
after `s ≥ 1` completed stages), whatever coefficients the 1-D kernel
produces, after the stage completes every sample of the output plane
outside the current LL region is bit-identical to its value before the
stage, and the output plane file size is exactly `W·H` samples
(`W·H·2` bytes) — an invariant maintained by every intermediate
write. -/
theorem waveletStage_frame_effect (W H B s : ℕ) (newVals : ℕ → ℕ → ℕ)
    (out : PlaneFile) (hB : 1 ≤ B) (hs : 1 ≤ s) (hsize : out.size = W * H) :
    (waveletStageGT1 W H (dimAfter W s) (dimAfter H s) B newVals out).size = W * H ∧
    ∀ x y, x < W → y < H →
      (dimAfter W s ≤ x ∨ dimAfter H s ≤ y) →
      (waveletStageGT1 W H (dimAfter W s) (dimAfter H s) B newVals out).data (y * W + x) =
        out.data (y * W + x) := by
  unfold waveletStageGT1
  have h := @colPassBatches_spec W H (dimAfter W s) (dimAfter H s) B newVals
    (dimAfter_le W s) (dimAfter_le H s)
    (batchStarts (dimAfter W s) B)
    { size := W * H, data := out.data }
    (batchStarts_le _ _ hB) rfl
  exact ⟨h.1, fun x y hx hy hout => h.2 x y hx hy hout⟩

/-- Witness for `waveletStage_frame_effect`: a `4×4` plane, batch size
2, after one completed stage (`LL` region `2×2`). -/
theorem waveletStage_frame_effect_witness :
    (waveletStageGT1 4 4 (dimAfter 4 1) (dimAfter 4 1) 2 (fun _ _ => 9)
      ⟨16, fun i => i⟩).size = 4 * 4 ∧
    ∀ x y, x < 4 → y < 4 →
      (dimAfter 4 1 ≤ x ∨ dimAfter 4 1 ≤ y) →
      (waveletStageGT1 4 4 (dimAfter 4 1) (dimAfter 4 1) 2 (fun _ _ => 9)
        ⟨16, fun i => i⟩).data (y * 4 + x) = (⟨16, fun i => i⟩ : PlaneFile).data (y * 4 + x) :=
  waveletStage_frame_effect 4 4 2 1 (fun _ _ => 9) ⟨16, fun i => i⟩
    (by decide) (by decide) rfl

/-! ## C2 — overflow discipline of the wavelet engine's offsets
(`src/src/flash_wavelet.cpp:140-199`, `243`, `474-508`)

Phase 2 of `streamingWaveletTransform` guards every offset computation
with explicit overflow checks before issuing I/O (lines 243, 375,
418, 474-508, 586-634).  The **row pass of phase 1 does not**: line
155 computes `file_pos = (ll_offset_y + row) * width *
sizeof(uint16_t) + ll_offset_x * sizeof(uint16_t)` in `size_t`
arithmetic with no guard and immediately issues `seek` + `read`.  The
first overflow check of the engine (line 243, `width > SIZE_MAX /
height || width * height > SIZE_MAX / sizeof(uint16_t)`) runs in phase
2 — after the whole stage-0 row pass has already issued its seeks.  We
record, for a stage-0 run in which the argument checks pass and every
read succeeds, the row-pass seeks as `(exact offset, wrapped size_t
offset)` pairs, followed by the phase-2 guard's verdict. -/

/-- Stage-0 control flow of `streamingWaveletTransform` up to the
first overflow guard (flash_wavelet.cpp:61-243): `none` when the
argument check `width == 0 || height == 0` rejects the call before any
I/O; otherwise the list of row-pass seeks (exact value, wrapped
`size_t` value, offsets `row·W·2` since `ll_offset_x = ll_offset_y =
0`) and whether the phase-2 overflow guard then fires (the `-23`
return). -/
def stage0RowPass (width height : ℕ) : Option (List (ℕ × ℕ) × Bool) :=
  if width = 0 ∨ height = 0 then none
  else some
    ((List.range height).map (fun row =>
      (row * width * 2, wrapSize (row * width * 2))),
     decide (width > (SIZE_BOUND - 1) / height ∨
             wrapSize (width * height) > (SIZE_BOUND - 1) / 2))

/-- Claim C2 — At `width = 2^30`, `height = 8` the engine issues the
row-2 seek at the silently wrapped `size_t` offset `0` (the exact
offset is `2·2^30·2 = 2^32`) during the phase-1 row pass, although the
phase-2 overflow guard — which fires for this input, as the `true`
verdict shows — has not yet run: the offset computation `row·W·2`
wraps and the read is issued before any `TRANSFORM_OVERFLOW`-class
error is returned, contradicting the claim. -/
theorem rowPass_silent_wrap :
    (2 ^ 32, 0) ∈ ((stage0RowPass (2 ^ 30) 8).getD ([], false)).1 ∧
    ((stage0RowPass (2 ^ 30) 8).getD ([], false)).2 = true ∧
    wrapSize (2 ^ 32) = 0 ∧ (2 ^ 32 : ℕ) ≠ 0 := by
  refine ⟨?_, by decide, by decide, by decide⟩
  decide

/-! ## The temporary-file lifecycle (C1, C8)

For claims C1 and C8 we model `compressYuvWithIcerFlash`
(`src/src/flash_icer_compression.cpp:79-1125`) and
`streamingWaveletTransform` (`src/src/flash_wavelet.cpp:52-784`) at the
granularity of their storage effects: which files exist before and
after every return.  Data stays abstract; each fallible call site
(open / malloc / read / write / library primitive) is driven by an
environment record.  The deterministic overflow guards of the source
are driven by the environment as well: every guard's failure path
performs the same cleanup as its source line, so quantifying over the
environment covers (a superset of) the source's behaviours, and the
concrete environments used in witnesses set the guards the way the
source's arithmetic would for those inputs.

Error codes: repository-level codes (`-1` … `-25`, `-102` … `-214`)
are the literal constants of the source; library enum values that the
source merely propagates (`ICER_…`) are opaque distinct negative
stand-ins — no theorem depends on their exact values, only on the
`0 = OK, nonzero = error` convention (spec §7). -/

/-- Stand-in for the library's `ICER_INTEGER_OVERFLOW`. -/
def ICER_INTEGER_OVERFLOW : Int := -1005

/-- Stand-in for a nonzero `icer_init` failure value. -/
def ICER_INIT_FAIL : Int := -1001

/-- Stand-in for a nonzero `icer_init_output_struct` failure value. -/
def ICER_OUTPUT_INIT_FAIL : Int := -1002

/-- Stand-in for the library's `ICER_PACKET_COUNT_EXCEEDED`. -/
def ICER_PACKET_COUNT_EXCEEDED : Int := -1003

/-- Stand-in for a nonzero `icer_generate_partition_parameters`
failure value. -/
def ICER_GEN_PARTITION_FAIL : Int := -1006

/-- Stand-in for the library's `ICER_BYTE_QUOTA_EXCEEDED`. -/
def ICER_BYTE_QUOTA_EXCEEDED : Int := -1007

/-- The files `streamingWaveletTransform` touches: its output plane
(`outF`), `_wavelet_temp.tmp` (`wTemp`), `_wavelet_stage_temp.tmp`
(`wStage`). -/
structure WFS where
  outF : Bool
  wTemp : Bool
  wStage : Bool
deriving DecidableEq

/-- Outcomes of one stage's fallible sites in
`streamingWaveletTransform`.  `Option (Fin n)` fields select which of
the loop's fallible operations fails first (`none` = the loop
completes). -/
structure WavStageEnv where
  openStageIn : Bool
  openTempOut : Bool
  mallocRow : Bool
  rowFail : Option (Fin 3)
  openTempIn : Bool
  openStageOut : Bool
  initGuard : Bool
  openExisting : Bool
  copyGuard : Bool
  mallocCopy : Bool
  copyFail : Option (Fin 2)
  colSizeGuard : Bool
  mallocCol : Bool
  batchFail : Option (Fin 7)
  openTempRead2 : Bool
  openFinalWrite : Bool
  finalGuard : Bool
  mallocCopy2 : Bool
  copy2Fail : Option (Fin 2)

/-- Row-loop failure codes: read `-6`, 1-D kernel `-7`, write `-8`
(flash_wavelet.cpp:160-198). -/
def rowFailCode (i : Fin 3) : Int := -6 - (i : ℕ)

/-- Stage-copy failure codes: read `-17`, write `-18`
(flash_wavelet.cpp:322-355). -/
def copyFailCode (i : Fin 2) : Int := -17 - (i : ℕ)

/-- Batch-loop failure codes in source order: the `-15`/`-17` offset
guards and `-12` read of phase 2A, the `-13` kernel of phase 2B, the
`-16`/`-18` guards and `-14` write of phase 2C
(flash_wavelet.cpp:469-673). -/
def batchFailCode (i : Fin 7) : Int :=
  [-15, -17, -12, -13, -16, -18, -14].get ⟨i, i.isLt⟩

/-- Final-copy failure codes: read `-21`, write `-22`
(flash_wavelet.cpp:726-753). -/
def copy2FailCode (i : Fin 2) : Int := -21 - (i : ℕ)

/-- The cleanup of the phase-2 failure paths: `remove(temp_file)`,
plus `remove(stage_output_file)` when `stage > 0`
(flash_wavelet.cpp:382-385 etc.). -/
def wavPhase2Cleanup (stage0 : Bool) (fs : WFS) : WFS :=
  if stage0 then { fs with wTemp := false }
  else { fs with wTemp := false, wStage := false }

/-- Phase 2 from the column-size guard onwards, shared by the stage-0
and stage-`>0` branches (flash_wavelet.cpp:371-766). -/
def wavStageCommon (e : WavStageEnv) (stage0 : Bool) (fs : WFS) :
    Except (Int × WFS) WFS :=
  if e.colSizeGuard then .error (-19, wavPhase2Cleanup stage0 fs)
  else if ¬e.mallocCol then .error (-11, wavPhase2Cleanup stage0 fs)
  else
    match e.batchFail with
    | some i => .error (batchFailCode i, wavPhase2Cleanup stage0 fs)
    | none =>
      if stage0 then .ok { fs with wTemp := false }
      else
        let fs := { fs with outF := false }
        let fs := { fs with outF := e.openFinalWrite }
        if ¬e.openTempRead2 ∨ ¬e.openFinalWrite then
          .error (-19, { fs with wTemp := false, wStage := false })
        else if e.finalGuard then
          .error (-25, { fs with wTemp := false, wStage := false })
        else if ¬e.mallocCopy2 then
          .error (-20, { fs with wTemp := false, wStage := false })
        else
          match e.copy2Fail with
          | some i => .error (copy2FailCode i, { fs with wTemp := false, wStage := false })
          | none => .ok { fs with wTemp := false, wStage := false }

/-- One stage of `streamingWaveletTransform`
(flash_wavelet.cpp:92-777): phase 1 (row pass into
`_wavelet_temp.tmp`), phase 2 (column pass into the output plane for
stage 0, into `_wavelet_stage_temp.tmp` otherwise), copy-back and
cleanup.  Note the `-5` path (row-buffer allocation failure, lines
128-137) closes its files but does **not** remove the just-created
`_wavelet_temp.tmp`. -/
def wavStage (e : WavStageEnv) (stage0 : Bool) (fs : WFS) :
    Except (Int × WFS) WFS :=
  if ¬e.openStageIn then .error (-3, fs)
  else
    let fs := { fs with wTemp := false }
    if ¬e.openTempOut then .error (-4, fs)
    else
      let fs := { fs with wTemp := true }
      if ¬e.mallocRow then .error (-5, fs)
      else
        match e.rowFail with
        | some i => .error (rowFailCode i, { fs with wTemp := false })
        | none =>
          if ¬e.openTempIn then .error (-10, { fs with wTemp := false })
          else if stage0 then
            let fs := { fs with outF := false }
            let fs := { fs with outF := e.openStageOut }
            if ¬e.openStageOut then .error (-9, { fs with wTemp := false })
            else if e.initGuard then .error (-23, { fs with wTemp := false })
            else wavStageCommon e stage0 fs
          else
            let fs := { fs with wStage := false }
            let fs := { fs with wStage := e.openStageOut }
            if ¬e.openStageOut then .error (-9, { fs with wTemp := false })
            else if ¬e.openExisting then
              .error (-15, { fs with wTemp := false, wStage := false })
            else if e.copyGuard then
              .error (-24, { fs with wTemp := false, wStage := false })
            else if ¬e.mallocCopy then
              .error (-16, { fs with wTemp := false, wStage := false })
            else
              match e.copyFail with
              | some i => .error (copyFailCode i, { fs with wTemp := false, wStage := false })
              | none => wavStageCommon e stage0 fs

/-- The stage loop of `streamingWaveletTransform`
(flash_wavelet.cpp:92-777), `cnt` stages starting at index `st`. -/
def wavLoop (env : ℕ → WavStageEnv) : ℕ → ℕ → WFS → Int × WFS
  | _, 0, fs => (0, fs)
  | st, Nat.succ rest, fs =>
    match wavStage (env st) (st = 0) fs with
    | .error (e, fs') => (e, fs')
    | .ok fs' => wavLoop env (st + 1) rest fs'

/-- Storage effects of `streamingWaveletTransform`
(flash_wavelet.cpp:52-784): `openInput` is the initial open of the
input plane (line 71, `-2`), preceded by `remove(output_flash_file)`
(line 68). -/
def streamingWaveletFS (openInput : Bool) (env : ℕ → WavStageEnv)
    (stages : ℕ) (fs : WFS) : Int × WFS :=
  let fs := { fs with outF := false }
  if ¬openInput then (-2, fs)
  else wavLoop env 0 stages fs

/-- The files `compressYuvWithIcerFlash` touches: the three transformed
channel planes (`_y/_u/_v_transformed.tmp`, or the caller's input files
when `channels_pre_transformed`), `_temp_convert.tmp` (`conv`), the
output bitstream file (`out`), and the wavelet scratch files. -/
structure FlashFS where
  yTrans : Bool
  uTrans : Bool
  vTrans : Bool
  conv : Bool
  out : Bool
  wTemp : Bool
  wStage : Bool
deriving DecidableEq

/-- Existence of channel `c`'s transformed plane. -/
def chanFile (c : Fin 3) (fs : FlashFS) : Bool :=
  if c = 0 then fs.yTrans else if c = 1 then fs.uTrans else fs.vTrans

/-- Create/remove channel `c`'s transformed plane. -/
def setChanFile (c : Fin 3) (b : Bool) (fs : FlashFS) : FlashFS :=
  if c = 0 then { fs with yTrans := b }
  else if c = 1 then { fs with uTrans := b }
  else { fs with vTrans := b }

/-- View of the wavelet-relevant files for a call transforming channel
`c` (the wavelet's output plane is that channel's transformed file). -/
def toWFS (c : Fin 3) (fs : FlashFS) : WFS :=
  ⟨chanFile c fs, fs.wTemp, fs.wStage⟩

/-- Merge a wavelet call's storage effects back. -/
def ofWFS (c : Fin 3) (w : WFS) (fs : FlashFS) : FlashFS :=
  { setChanFile c w.outF fs with wTemp := w.wTemp, wStage := w.wStage }

/-- The cleanup block repeated on every error path of
`compressYuvWithIcerFlash` after step 1:
`if (!channels_pre_transformed) { remove(y/u/v_transformed); }`. -/
def removeTrans (pre : Bool) (fs : FlashFS) : FlashFS :=
  if pre then fs
  else { fs with yTrans := false, uTrans := false, vTrans := false }

/-- Early-return sequencing of pipeline steps. -/
def exSeq (a : Except (Int × FlashFS) FlashFS)
    (f : FlashFS → Except (Int × FlashFS) FlashFS) :
    Except (Int × FlashFS) FlashFS :=
  match a with
  | .error e => .error e
  | .ok fs => f fs

/-- Outcomes of the per-channel fallible sites of steps 2 and 2.5 of
`compressYuvWithIcerFlash` (flash_icer_compression.cpp:212-596). -/
structure ChanEnv where
  open2 : Bool
  read2 : Bool
  meanOverflow : Bool
  open25 : Bool
  malloc25 : Bool
  read25 : Bool
  openWriteLL : Bool
  writeLL : Bool
  openConvRead : Bool
  openConvWrite : Bool
  mallocRow : Bool
  convRead : Bool
  convWrite : Bool
  openTempRead : Bool
  openOrigWrite : Bool
  mallocCopy : Bool
  copyRead : Bool
  copyWrite : Bool

/-- Outcomes of the fallible sites of one `compressYuvWithIcerFlash`
invocation.  `allocFail` selects which of the three buffer allocations
of `allocateIcerBuffers` fails (error `-120 - r` with `r ∈
{-1,-2,-3}`); `partitionRes it` is the value
`icer_compress_partition_uint16_flash` returns for packet `it` (`0` =
`ICER_RESULT_OK`; `ICER_BYTE_QUOTA_EXCEEDED` arrives here). -/
structure PipeEnv where
  allocFail : Option (Fin 3)
  icerInitFail : Bool
  wavInput : Fin 3 → Bool
  wav : Fin 3 → ℕ → WavStageEnv
  mallocLL : Bool
  chan : Fin 3 → ChanEnv
  pixelOverflow : Bool
  mallocDatastream : Bool
  openOutput : Bool
  initOutputFail : Bool
  packetOverflow : Bool
  openChan4 : ℕ → Bool
  genPartitionFail : ℕ → Bool
  partitionRes : ℕ → Int
  rearrangeWriteOk : Bool
  verifyOpen : Bool
  sizeMatch : Bool

/-- Step 1 of `compressYuvWithIcerFlash`
(flash_icer_compression.cpp:134-187): three wavelet calls.  On a Y
failure nothing is removed; a U failure removes `_y_transformed.tmp`;
a V failure removes `_y_` and `_u_transformed.tmp` (lines 142-179). -/
def step1 (env : PipeEnv) (stages : ℕ) (fs : FlashFS) :
    Except (Int × FlashFS) FlashFS :=
  match streamingWaveletFS (env.wavInput 0) (env.wav 0) stages (toWFS 0 fs) with
  | (e, w) =>
    let fs := ofWFS 0 w fs
    if e ≠ 0 then .error (-201 - e, fs)
    else
      match streamingWaveletFS (env.wavInput 1) (env.wav 1) stages (toWFS 1 fs) with
      | (e, w) =>
        let fs := ofWFS 1 w fs
        if e ≠ 0 then .error (-201 - e, { fs with yTrans := false })
        else
          match streamingWaveletFS (env.wavInput 2) (env.wav 2) stages (toWFS 2 fs) with
          | (e, w) =>
            let fs := ofWFS 2 w fs
            if e ≠ 0 then .error (-201 - e, { fs with yTrans := false, uTrans := false })
            else .ok fs

/-- Step 2 for one channel (flash_icer_compression.cpp:212-280): open
the transformed plane (`-203`), read the LL rows (`-204`), check the
mean against `INT16_MAX` (`ICER_INTEGER_OVERFLOW`). -/
def step2chan (ce : ChanEnv) (pre : Bool) (fs : FlashFS) :
    Except (Int × FlashFS) FlashFS :=
  if ¬ce.open2 then .error (-203, removeTrans pre fs)
  else if ¬ce.read2 then .error (-204, removeTrans pre fs)
  else if ce.meanOverflow then .error (ICER_INTEGER_OVERFLOW, removeTrans pre fs)
  else .ok fs

/-- The copy-back of step 2.5 (flash_icer_compression.cpp:511-595):
the channel plane is removed (line 513) and re-created by the
`FILE_WRITE` open; every error path removes `_temp_convert.tmp` and
runs the `removeTrans` block; success removes `_temp_convert.tmp`
(line 595). -/
def step25copyBack (ce : ChanEnv) (pre : Bool) (c : Fin 3) (fs : FlashFS) :
    Except (Int × FlashFS) FlashFS :=
  let fs := setChanFile c false fs
  let fs := setChanFile c ce.openOrigWrite fs
  if ¬ce.openTempRead ∨ ¬ce.openOrigWrite then
    .error (-211, removeTrans pre { fs with conv := false })
  else if ¬ce.mallocCopy then .error (-212, removeTrans pre { fs with conv := false })
  else if ¬ce.copyRead then .error (-213, removeTrans pre { fs with conv := false })
  else if ¬ce.copyWrite then .error (-214, removeTrans pre { fs with conv := false })
  else .ok { fs with conv := false }

/-- The sign-magnitude conversion of step 2.5 through
`_temp_convert.tmp` (flash_icer_compression.cpp:406-509): the
`FILE_WRITE` open creates the scratch file, every error path removes
it again. -/
def step25conv (ce : ChanEnv) (pre : Bool) (c : Fin 3) (fs : FlashFS) :
    Except (Int × FlashFS) FlashFS :=
  let fs := { fs with conv := false }
  let fs := { fs with conv := ce.openConvWrite }
  if ¬ce.openConvRead ∨ ¬ce.openConvWrite then
    .error (-207, removeTrans pre { fs with conv := false })
  else if ¬ce.mallocRow then .error (-208, removeTrans pre { fs with conv := false })
  else if ¬ce.convRead then .error (-209, removeTrans pre { fs with conv := false })
  else if ¬ce.convWrite then .error (-210, removeTrans pre { fs with conv := false })
  else step25copyBack ce pre c fs

/-- Step 2.5 for one channel (flash_icer_compression.cpp:293-596):
re-read the LL subband, subtract the mean and write it back (lines
293-404), then convert the plane to sign-magnitude through
`_temp_convert.tmp` and copy it back over the channel plane. -/
def step25chan (ce : ChanEnv) (pre : Bool) (c : Fin 3) (fs : FlashFS) :
    Except (Int × FlashFS) FlashFS :=
  if ¬ce.open25 then .error (-203, removeTrans pre fs)
  else if ¬ce.malloc25 then .error (-202, removeTrans pre fs)
  else if ¬ce.read25 then .error (-204, removeTrans pre fs)
  else if ¬ce.openWriteLL then .error (-205, removeTrans pre fs)
  else if ¬ce.writeLL then .error (-206, removeTrans pre fs)
  else step25conv ce pre c fs

/-- The packet-processing loop of step 4
(flash_icer_compression.cpp:862-970): per packet, open the channel
plane (`-207`), generate partition parameters, call the flash
partition coder; **any** nonzero coder result — including
`ICER_BYTE_QUOTA_EXCEEDED` — is cleaned up and returned as the
pipeline's error (lines 957-969); the subband dispatch cannot reach
its `ICER_FATAL_ERROR` branch because every packet the list builder
emits carries one of the four subband types. -/
def step4 (env : PipeEnv) (pre : Bool) : ℕ → ℕ → FlashFS →
    Except (Int × FlashFS) FlashFS
  | _, 0, fs => .ok fs
  | it, Nat.succ rest, fs =>
    if ¬env.openChan4 it then .error (-207, removeTrans pre fs)
    else if env.genPartitionFail it then
      .error (ICER_GEN_PARTITION_FAIL, removeTrans pre fs)
    else if env.partitionRes it ≠ 0 then
      .error (env.partitionRes it, removeTrans pre fs)
    else step4 env pre (it + 1) rest fs

/-- Steps 2 through 6 of `compressYuvWithIcerFlash`
(flash_icer_compression.cpp:189-1124) — everything after the wavelet
step.  `N` is the number of packets the builder produced.  Returns
`(error_code, success, filesystem)`.  Note which failure paths leave
the output file in place: every error return after the output file is
created at line 678 closes it but removes it only in the `-113`
size-mismatch branch (line 1102). -/
def pipelineRest (env : PipeEnv) (pre : Bool) (N : ℕ) (fs : FlashFS) :
    Int × Bool × FlashFS :=
  if ¬env.mallocLL then (-202, false, removeTrans pre fs)
  else
    match exSeq (exSeq (step2chan (env.chan 0) pre fs) (step2chan (env.chan 1) pre))
          (step2chan (env.chan 2) pre) with
    | .error (e, fs') => (e, false, fs')
    | .ok fs =>
      match exSeq (exSeq (step25chan (env.chan 0) pre 0 fs) (step25chan (env.chan 1) pre 1))
            (step25chan (env.chan 2) pre 2) with
      | .error (e, fs') => (e, false, fs')
      | .ok fs =>
        if env.pixelOverflow then (-102, false, removeTrans pre fs)
        else if ¬env.mallocDatastream then (-105, false, removeTrans pre fs)
        else
          let fs := { fs with out := false }
          let fs := { fs with out := env.openOutput }
          if ¬env.openOutput then (-206, false, removeTrans pre fs)
          else if env.initOutputFail then
            (ICER_OUTPUT_INIT_FAIL, false, removeTrans pre fs)
          else if env.packetOverflow then
            (ICER_PACKET_COUNT_EXCEEDED, false, removeTrans pre fs)
          else
            match step4 env pre 0 N fs with
            | .error (e, fs') => (e, false, fs')
            | .ok fs =>
              if ¬env.rearrangeWriteOk then
                (ICER_FATAL_ERROR, false, removeTrans pre fs)
              else if ¬env.verifyOpen then (-114, false, removeTrans pre fs)
              else if env.sizeMatch then (0, true, removeTrans pre fs)
              else (-113, false, removeTrans pre { fs with out := false })

/-- Storage effects of a whole `compressYuvWithIcerFlash` invocation
(flash_icer_compression.cpp:79-1125).  The initial filesystem holds the
three input channel planes (which are the "transformed" names when
`pre`) and none of the pipeline's own files. -/
def compressFS (env : PipeEnv) (pre : Bool) (stages N : ℕ) :
    Int × Bool × FlashFS :=
  let fs : FlashFS := ⟨pre, pre, pre, false, false, false, false⟩
  match env.allocFail with
  | some i => (-120 - (-1 - (i : ℕ) : Int), false, fs)
  | none =>
    if env.icerInitFail then (ICER_INIT_FAIL, false, fs)
    else
      match (if pre then .ok fs else step1 env stages fs) with
      | .error (e, fs') => (e, false, fs')
      | .ok fs => pipelineRest env pre N fs

/-- The files every post-step-1 path must keep absent between steps:
`_temp_convert.tmp` and the wavelet scratch files. -/
def MidInv (fs : FlashFS) : Prop :=
  fs.conv = false ∧ fs.wTemp = false ∧ fs.wStage = false

/-- The cleanliness the amended C1 asserts of every post-step-1
return: no `_temp_convert.tmp`, no wavelet scratch files, and — when
the channels were not pre-transformed — none of the transformed-channel
temporaries. -/
def CleanA (pre : Bool) (fs : FlashFS) : Prop :=
  MidInv fs ∧ (pre = false →
    fs.yTrans = false ∧ fs.uTrans = false ∧ fs.vTrans = false)

theorem setChanFile_fields (c : Fin 3) (b : Bool) (fs : FlashFS) :
    (setChanFile c b fs).conv = fs.conv ∧ (setChanFile c b fs).wTemp = fs.wTemp ∧
    (setChanFile c b fs).wStage = fs.wStage ∧ (setChanFile c b fs).out = fs.out := by
  unfold setChanFile
  split
  · exact ⟨rfl, rfl, rfl, rfl⟩
  · split <;> exact ⟨rfl, rfl, rfl, rfl⟩

theorem removeTrans_fields (pre : Bool) (fs : FlashFS) :
    (removeTrans pre fs).conv = fs.conv ∧ (removeTrans pre fs).wTemp = fs.wTemp ∧
    (removeTrans pre fs).wStage = fs.wStage ∧ (removeTrans pre fs).out = fs.out := by
  unfold removeTrans
  split <;> exact ⟨rfl, rfl, rfl, rfl⟩

theorem removeTrans_clean (pre : Bool) (fs : FlashFS) (h : MidInv fs) :
    CleanA pre (removeTrans pre fs) := by
  unfold removeTrans CleanA MidInv
  unfold MidInv at h
  split
  next hpre => exact ⟨h, fun hc => by rw [hpre] at hc; cases hc⟩
  · exact ⟨h, fun _ => ⟨rfl, rfl, rfl⟩⟩

theorem step2chan_cases (ce : ChanEnv) (pre : Bool) (fs : FlashFS) :
    step2chan ce pre fs = .ok fs ∨
    ∃ e, step2chan ce pre fs = .error (e, removeTrans pre fs) := by
  unfold step2chan
  split
  · exact Or.inr ⟨_, rfl⟩
  split
  · exact Or.inr ⟨_, rfl⟩
  split
  · exact Or.inr ⟨_, rfl⟩
  · exact Or.inl rfl


/-- What every step-2.5 outcome guarantees relative to the entry
state `fs`: success leaves `_temp_convert.tmp` removed and the other
scratch files untouched; failure additionally ran the `removeTrans`
cleanup. -/
def Step25Post (pre : Bool) (fs : FlashFS)
    (r : Except (Int × FlashFS) FlashFS) : Prop :=
  (∃ fs', r = .ok fs' ∧ fs'.conv = false ∧ fs'.wTemp = fs.wTemp ∧
    fs'.wStage = fs.wStage ∧ fs'.out = fs.out) ∨
  (∃ e fs', r = .error (e, fs') ∧ fs'.conv = false ∧ fs'.wTemp = fs.wTemp ∧
    fs'.wStage = fs.wStage ∧
    (pre = false → fs'.yTrans = false ∧ fs'.uTrans = false ∧ fs'.vTrans = false))

theorem removeTrans_clears (pre : Bool) (fs : FlashFS) (hpre : pre = false) :
    (removeTrans pre fs).yTrans = false ∧ (removeTrans pre fs).uTrans = false ∧
    (removeTrans pre fs).vTrans = false := by
  subst hpre
  unfold removeTrans
  exact ⟨rfl, rfl, rfl⟩

theorem step25copyBack_post (ce : ChanEnv) (pre : Bool) (c : Fin 3) (fs : FlashFS) :
    Step25Post pre fs (step25copyBack ce pre c fs) := by
  have hrt := removeTrans_fields pre
  have hsc := setChanFile_fields
  unfold step25copyBack Step25Post
  split
  · exact Or.inr ⟨_, _, rfl, (hrt _).1, (hrt _).2.1.trans ((hsc _ _ _).2.1.trans (hsc _ _ _).2.1),
      (hrt _).2.2.1.trans ((hsc _ _ _).2.2.1.trans (hsc _ _ _).2.2.1), removeTrans_clears pre _⟩
  split
  · exact Or.inr ⟨_, _, rfl, (hrt _).1, (hrt _).2.1.trans ((hsc _ _ _).2.1.trans (hsc _ _ _).2.1),
      (hrt _).2.2.1.trans ((hsc _ _ _).2.2.1.trans (hsc _ _ _).2.2.1), removeTrans_clears pre _⟩
  split
  · exact Or.inr ⟨_, _, rfl, (hrt _).1, (hrt _).2.1.trans ((hsc _ _ _).2.1.trans (hsc _ _ _).2.1),
      (hrt _).2.2.1.trans ((hsc _ _ _).2.2.1.trans (hsc _ _ _).2.2.1), removeTrans_clears pre _⟩
  split
  · exact Or.inr ⟨_, _, rfl, (hrt _).1, (hrt _).2.1.trans ((hsc _ _ _).2.1.trans (hsc _ _ _).2.1),
      (hrt _).2.2.1.trans ((hsc _ _ _).2.2.1.trans (hsc _ _ _).2.2.1), removeTrans_clears pre _⟩
  · exact Or.inl ⟨_, rfl, rfl, (hsc _ _ _).2.1.trans (hsc _ _ _).2.1,
      (hsc _ _ _).2.2.1.trans (hsc _ _ _).2.2.1, (hsc _ _ _).2.2.2.trans (hsc _ _ _).2.2.2⟩

theorem step25conv_post (ce : ChanEnv) (pre : Bool) (c : Fin 3) (fs : FlashFS) :
    Step25Post pre fs (step25conv ce pre c fs) := by
  have hrt := removeTrans_fields pre
  unfold step25conv
  split
  · exact Or.inr ⟨_, _, rfl, (hrt _).1, (hrt _).2.1, (hrt _).2.2.1, removeTrans_clears pre _⟩
  split
  · exact Or.inr ⟨_, _, rfl, (hrt _).1, (hrt _).2.1, (hrt _).2.2.1, removeTrans_clears pre _⟩
  split
  · exact Or.inr ⟨_, _, rfl, (hrt _).1, (hrt _).2.1, (hrt _).2.2.1, removeTrans_clears pre _⟩
  split
  · exact Or.inr ⟨_, _, rfl, (hrt _).1, (hrt _).2.1, (hrt _).2.2.1, removeTrans_clears pre _⟩
  · exact step25copyBack_post ce pre c _

theorem step25chan_post (ce : ChanEnv) (pre : Bool) (c : Fin 3) (fs : FlashFS)
    (hconv : fs.conv = false) :
    Step25Post pre fs (step25chan ce pre c fs) := by
  have hrt := removeTrans_fields pre
  unfold step25chan
  split
  · exact Or.inr ⟨_, _, rfl, (hrt _).1.trans hconv, (hrt _).2.1, (hrt _).2.2.1,
      removeTrans_clears pre _⟩
  split
  · exact Or.inr ⟨_, _, rfl, (hrt _).1.trans hconv, (hrt _).2.1, (hrt _).2.2.1,
      removeTrans_clears pre _⟩
  split
  · exact Or.inr ⟨_, _, rfl, (hrt _).1.trans hconv, (hrt _).2.1, (hrt _).2.2.1,
      removeTrans_clears pre _⟩
  split
  · exact Or.inr ⟨_, _, rfl, (hrt _).1.trans hconv, (hrt _).2.1, (hrt _).2.2.1,
      removeTrans_clears pre _⟩
  split
  · exact Or.inr ⟨_, _, rfl, (hrt _).1.trans hconv, (hrt _).2.1, (hrt _).2.2.1,
      removeTrans_clears pre _⟩
  · exact step25conv_post ce pre c fs

theorem step2chain_cases (e0 e1 e2 : ChanEnv) (pre : Bool) (fs : FlashFS) :
    exSeq (exSeq (step2chan e0 pre fs) (step2chan e1 pre)) (step2chan e2 pre) = .ok fs ∨
    ∃ e, exSeq (exSeq (step2chan e0 pre fs) (step2chan e1 pre)) (step2chan e2 pre) =
      .error (e, removeTrans pre fs) := by
  rcases step2chan_cases e0 pre fs with h0 | ⟨e, h0⟩
  · rw [h0]
    dsimp only [exSeq]
    rcases step2chan_cases e1 pre fs with h1 | ⟨e, h1⟩
    · rw [h1]
      dsimp only [exSeq]
      rcases step2chan_cases e2 pre fs with h2 | ⟨e, h2⟩
      · exact Or.inl h2
      · exact Or.inr ⟨e, h2⟩
    · rw [h1]
      exact Or.inr ⟨e, rfl⟩
  · rw [h0]
    exact Or.inr ⟨e, rfl⟩

theorem step25chain_post (e0 e1 e2 : ChanEnv) (pre : Bool) (fs : FlashFS)
    (hconv : fs.conv = false) :
    Step25Post pre fs
      (exSeq (exSeq (step25chan e0 pre 0 fs) (step25chan e1 pre 1))
        (step25chan e2 pre 2)) := by
  rcases step25chan_post e0 pre 0 fs hconv with
    ⟨fs1, h0, hc1, hw1, hs1, ho1⟩ | ⟨e, fs', h0, hc, hw, hsg, hcl⟩
  · rw [h0]
    dsimp only [exSeq]
    rcases step25chan_post e1 pre 1 fs1 hc1 with
      ⟨fs2, h1, hc2, hw2, hs2, ho2⟩ | ⟨e, fs', h1, hc, hw, hsg, hcl⟩
    · rw [h1]
      dsimp only [exSeq]
      rcases step25chan_post e2 pre 2 fs2 hc2 with
        ⟨fs3, h2, hc3, hw3, hs3, ho3⟩ | ⟨e, fs', h2, hc, hw, hsg, hcl⟩
      · exact Or.inl ⟨fs3, h2, hc3, hw3.trans (hw2.trans hw1),
          hs3.trans (hs2.trans hs1), ho3.trans (ho2.trans ho1)⟩
      · exact Or.inr ⟨e, fs', h2, hc, hw.trans (hw2.trans hw1),
          hsg.trans (hs2.trans hs1), hcl⟩
    · rw [h1]
      exact Or.inr ⟨e, fs', rfl, hc, hw.trans hw1, hsg.trans hs1, hcl⟩
  · rw [h0]
    exact Or.inr ⟨e, fs', rfl, hc, hw, hsg, hcl⟩

theorem step4_cases (env : PipeEnv) (pre : Bool) :
    ∀ (cnt it : ℕ) (fs : FlashFS),
      step4 env pre it cnt fs = .ok fs ∨
      ∃ e, step4 env pre it cnt fs = .error (e, removeTrans pre fs) := by
  intro cnt
  induction cnt with
  | zero => intro it fs; exact Or.inl rfl
  | succ m ih =>
    intro it fs
    unfold step4
    split
    · exact Or.inr ⟨_, rfl⟩
    split
    · exact Or.inr ⟨_, rfl⟩
    split
    · exact Or.inr ⟨_, rfl⟩
    · exact ih (it + 1) fs

/-- Claim C1 (amended) — Every return of the pipeline occurring after
the wavelet-transform step — success or failure, at any combination of
call-site outcomes — leaves `_temp_convert.tmp`,
`_wavelet_temp.tmp` and `_wavelet_stage_temp.tmp` absent, and (when
the channels were not pre-transformed) removes all of
`_y_transformed.tmp`, `_u_transformed.tmp`, `_v_transformed.tmp`.
(The output bitstream file is *not* part of this guarantee: most
failure paths leave it behind, as `pipeline_output_left_on_failure`
shows, which is what refutes the claim as stated.) -/
theorem pipelineRest_cleanup (env : PipeEnv) (pre : Bool) (N : ℕ)
    (fs₀ : FlashFS) (h : MidInv fs₀) :
    CleanA pre (pipelineRest env pre N fs₀).2.2 := by
  obtain ⟨hc0, hw0, hs0⟩ := h
  unfold pipelineRest
  split
  · exact removeTrans_clean pre fs₀ ⟨hc0, hw0, hs0⟩
  rcases step2chain_cases (env.chan 0) (env.chan 1) (env.chan 2) pre fs₀ with h2 | ⟨e, h2⟩
  · rw [h2]
    dsimp only
    rcases step25chain_post (env.chan 0) (env.chan 1) (env.chan 2) pre fs₀ hc0 with
      ⟨fs1, h25, hc1, hw1, hs1, ho1⟩ | ⟨e, fs', h25, hc, hw, hsg, hcl⟩
    · rw [h25]
      dsimp only
      have hmid1 : MidInv fs1 := ⟨hc1, hw1.trans hw0, hs1.trans hs0⟩
      split
      · exact removeTrans_clean pre fs1 hmid1
      split
      · exact removeTrans_clean pre fs1 hmid1
      split
      · exact removeTrans_clean pre _ hmid1
      split
      · exact removeTrans_clean pre _ hmid1
      split
      · exact removeTrans_clean pre _ hmid1
      rcases step4_cases env pre N 0 { fs1 with out := env.openOutput } with h4 | ⟨e, h4⟩
      · rw [h4]
        dsimp only
        split
        · exact removeTrans_clean pre _ hmid1
        split
        · exact removeTrans_clean pre _ hmid1
        split
        · exact removeTrans_clean pre _ hmid1
        · exact removeTrans_clean pre _ hmid1
      · rw [h4]
        exact removeTrans_clean pre _ hmid1
    · rw [h25]
      exact ⟨⟨hc, hw.trans hw0, hsg.trans hs0⟩, hcl⟩
  · rw [h2]
    exact removeTrans_clean pre fs₀ ⟨hc0, hw0, hs0⟩

/-- A wavelet stage environment in which every call succeeds. -/
def wavStageEnvOk : WavStageEnv :=
  { openStageIn := true, openTempOut := true, mallocRow := true, rowFail := none,
    openTempIn := true, openStageOut := true, initGuard := false,
    openExisting := true, copyGuard := false, mallocCopy := true, copyFail := none,
    colSizeGuard := false, mallocCol := true, batchFail := none,
    openTempRead2 := true, openFinalWrite := true, finalGuard := false,
    mallocCopy2 := true, copy2Fail := none }

/-- A per-channel environment in which every call succeeds. -/
def chanEnvOk : ChanEnv :=
  { open2 := true, read2 := true, meanOverflow := false, open25 := true,
    malloc25 := true, read25 := true, openWriteLL := true, writeLL := true,
    openConvRead := true, openConvWrite := true, mallocRow := true,
    convRead := true, convWrite := true, openTempRead := true,
    openOrigWrite := true, mallocCopy := true, copyRead := true, copyWrite := true }

/-- A pipeline environment in which every call succeeds. -/
def pipeEnvOk : PipeEnv :=
  { allocFail := none, icerInitFail := false, wavInput := fun _ => true,
    wav := fun _ _ => wavStageEnvOk, mallocLL := true, chan := fun _ => chanEnvOk,
    pixelOverflow := false, mallocDatastream := true, openOutput := true,
    initOutputFail := false, packetOverflow := false, openChan4 := fun _ => true,
    genPartitionFail := fun _ => false, partitionRes := fun _ => 0,
    rearrangeWriteOk := true, verifyOpen := true, sizeMatch := true }

/-- Witness for `pipelineRest_cleanup`: the all-success run over
pre-transformed channels. -/
theorem pipelineRest_cleanup_witness :
    CleanA true (pipelineRest pipeEnvOk true 0
      ⟨true, true, true, false, false, false, false⟩).2.2 :=
  pipelineRest_cleanup pipeEnvOk true 0 _ ⟨rfl, rfl, rfl⟩

/-- Claim C1 (counterexample) — With pre-transformed channels and every
call succeeding up to `icer_init_output_struct`, which fails, the
pipeline returns a failure code — yet the output bitstream file it
created at flash_icer_compression.cpp:678 still exists after the
return (the failure path closes it but never removes it), refuting the
claim that a failure return leaves no output file behind. -/
theorem pipeline_output_left_on_failure :
    (compressFS { pipeEnvOk with initOutputFail := true } true 1 0).1 ≠ 0 ∧
    (compressFS { pipeEnvOk with initOutputFail := true } true 1 0).2.1 = false ∧
    (compressFS { pipeEnvOk with initOutputFail := true } true 1 0).2.2.out = true := by
  refine ⟨by decide, by decide, by decide⟩

/-- Claim C8 (amended) — When the partition coder fails on some packet
`i` with any nonzero result — `ICER_BYTE_QUOTA_EXCEEDED` included —
after coding packets `0..i−1` cleanly, the packet loop stops there and
the pipeline returns exactly that result after running the
`removeTrans` cleanup: the already-coded segments are abandoned and no
emission takes place. -/
theorem step4_propagates (env : PipeEnv) (pre : Bool) :
    ∀ (cnt it i : ℕ) (fs : FlashFS), i < cnt →
      (∀ j, j < i → env.openChan4 (it + j) = true ∧
        env.genPartitionFail (it + j) = false ∧ env.partitionRes (it + j) = 0) →
      env.openChan4 (it + i) = true → env.genPartitionFail (it + i) = false →
      env.partitionRes (it + i) ≠ 0 →
      step4 env pre it cnt fs = .error (env.partitionRes (it + i), removeTrans pre fs) := by
  intro cnt
  induction cnt with
  | zero => intro it i fs hi; exact (Nat.not_lt_zero i hi).elim
  | succ m ih =>
    intro it i fs hi hpr hop hgen hres
    unfold step4
    cases i with
    | zero =>
      rw [Nat.add_zero] at hop hgen hres
      rw [if_neg (by simp [hop]), if_neg (by simp [hgen]), if_pos hres, Nat.add_zero]
    | succ j =>
      have h0 := hpr 0 (by omega)
      rw [Nat.add_zero] at h0
      rw [if_neg (by simp [h0.1]), if_neg (by simp [h0.2.1]),
        if_neg (by simp [h0.2.2])]
      have hrec := ih (it + 1) j fs (by omega)
        (fun k hk => by
          have := hpr (k + 1) (by omega)
          rwa [show it + (k + 1) = it + 1 + k by omega] at this)
        (by rwa [show it + 1 + j = it + (j + 1) by omega])
        (by rwa [show it + 1 + j = it + (j + 1) by omega])
        (by rwa [show it + 1 + j = it + (j + 1) by omega])
      rwa [show it + 1 + j = it + (j + 1) by omega] at hrec

/-- Witness for `step4_propagates`: the first of two packets fails
with the byte-quota code and the loop propagates it unchanged. -/
theorem step4_propagates_witness :
    step4 { pipeEnvOk with partitionRes := fun _ => ICER_BYTE_QUOTA_EXCEEDED }
      false 0 2 ⟨true, true, true, false, true, false, false⟩ =
    .error (({ pipeEnvOk with
        partitionRes := fun _ => ICER_BYTE_QUOTA_EXCEEDED } : PipeEnv).partitionRes (0 + 0),
      removeTrans false ⟨true, true, true, false, true, false, false⟩) :=
  step4_propagates _ false 2 0 0 _ (by decide)
    (fun j hj => absurd hj (Nat.not_lt_zero j)) (by decide) (by decide) (by decide)

/-- Claim C8 (counterexample) — With every other call succeeding and the
partition coder reporting `ICER_BYTE_QUOTA_EXCEEDED` on the first
packet, the pipeline returns that error with `success = false`
(flash_icer_compression.cpp:957-969): it does not proceed to emission
and produces no short bitstream, refuting the claim. -/
theorem pipeline_errors_on_quota_exceeded :
    (compressFS { pipeEnvOk with
      partitionRes := fun _ => ICER_BYTE_QUOTA_EXCEEDED } true 1 1).1 =
      ICER_BYTE_QUOTA_EXCEEDED ∧
    (compressFS { pipeEnvOk with
      partitionRes := fun _ => ICER_BYTE_QUOTA_EXCEEDED } true 1 1).2.1 = false := by
  refine ⟨by decide, by decide⟩
